import Mathlib

/-!
# Verification of the MoSP-Geo-Tool core against its specification

Shallow embedding of the core algorithms of the MoSP-Geo-Tool repository
(files `app/douglas_peucker.py`, `app/poi.py`, `app/partition.py`,
`geo/geo_utils.py`, `geo/osm_import.py`) and proofs settling the frozen
claims about them.

Modelling conventions:
* Python floats are modelled as rationals (`ℚ`).  The geodesic backend
  (`pyproj.Geod.inv` / `Geod.fwd`), the UTM projection and `math.sqrt`
  are external, transcendental collaborators; functions that call them
  take them as explicit parameters.
* Python exceptions are modelled with `Except PyErr`; functions that
  mutate the shared OSM store thread an explicit state value and return
  the state reached at the point an exception is raised.
* Loops whose termination is in question are modelled with explicit
  fuel; divergence of the source loop is expressed as `= none` for
  every fuel value.
-/

deriving instance DecidableEq for Except

namespace MoSP

/-- Python exception kinds raised by the modelled code paths. -/
inductive PyErr where
  | typeError      -- e.g. unpacking a float, calling with wrong arity, len(None)
  | valueError     -- e.g. pyproj Geod.inv failure, list.index miss, min()/min_key() of empty
  | attributeError -- e.g. None.something, AVL lookup miss treated as object access
  | assertionError -- failed assert statement
  | indexError     -- list index out of range
  | nameError      -- reading a local name before its first assignment
  deriving DecidableEq, Repr

/-! ## Geometry kernel data (`geo/osm_import.py` Node, read-only part)

A `NodeRef` is the immutable part of an OSM `Node` object as read by the
geometry kernel: identity, WGS84 coordinates (`lon`/`lat`), the UTM
planar coordinates returned by `get_x_utm`/`get_y_utm`, and the tag map.
The UTM projection itself is an external collaborator, so `x`/`y` are
simply data here.  Mutable `Node` state (partition id, neighbours) lives
in the OSM store model further below and is accessed by node id. -/

structure NodeRef where
  node_id : ℤ
  lon : ℚ
  lat : ℚ
  x : ℚ
  y : ℚ
  tags : List (String × String)
  deriving DecidableEq, Repr, Inhabited

/-- `TOLERANCE = 1e-7` (`geo/geo_utils.py`, line 14), as the exact
rational `1/10^7` (the float literal differs from it only below the
scale of every comparison made in this development). -/
def TOLERANCE : ℚ := 1 / 10 ^ 7

/-- The geodesic inverse backend `pyproj.Geod.inv`, an external
collaborator: returns `(azimuth_forward, azimuth_backward, distance)`
or fails with `ValueError` (pyproj issue #18 on near-coincident
points). -/
def GeodInv : Type := NodeRef → NodeRef → Except Unit (ℚ × ℚ × ℚ)

/-- The `math.sqrt` backend, an external real-valued function modelled
as a rational-valued parameter. -/
def SqrtFn : Type := ℚ → ℚ

/-- A Python runtime value, as far as the modelled code manipulates one
in a tuple-unpacking assignment. -/
inductive PyValue where
  | float (q : ℚ)
  | tuple3 (a b c : ℚ)
  deriving DecidableEq, Repr

/-- Python tuple unpacking `a, b, c = v`: succeeds on a 3-tuple and
raises `TypeError` on a scalar float. -/
def unpack3 : PyValue → Except PyErr (ℚ × ℚ × ℚ)
  | .tuple3 a b c => .ok (a, b, c)
  | .float _ => .error .typeError

/-- `distance_points(point1, point2)` (`geo/geo_utils.py`, lines
16–40).  On success it forwards the `Geod.inv` triple.  Its
`except ValueError` handler executes the statement
`az_f, az_b, distance = 0.0`, i.e. it unpacks the float `0.0` into
three names. -/
def distance_points (geod : GeodInv) (point1 point2 : NodeRef) :
    Except PyErr (ℚ × ℚ × ℚ) :=
  match geod point1 point2 with
  | .ok t => .ok t
  | .error _ => unpack3 (.float 0)

/-- `have_same_coords(point1, point2, tolerance)` (`geo/geo_utils.py`,
lines 58–78), including the source's comparison of `point1.lat` with
itself (`abs(point1.lat - point1.lat) <= tolerance`, line 78). -/
def have_same_coords (point1 point2 : Option NodeRef) (tolerance : ℚ := TOLERANCE) :
    Bool :=
  match point1, point2 with
  | some p1, some p2 =>
      decide (|p1.lon - p2.lon| ≤ tolerance) && decide (|p1.lat - p1.lat| ≤ tolerance)
  | _, _ => false

/-- The distance mode of `__distance_point_to_line`: a 1-element list
(projection before start / past end) or a 3-element list
`[start, end, projected_length]`. -/
inductive DMode where
  | single (n : NodeRef)
  | seg (start stop : NodeRef) (projection : ℚ)
  deriving DecidableEq, Repr

/-- `__distance_point_to_line(line_start, line_end, point)`
(`geo/geo_utils.py`, lines 165–247).  Every `try/except ValueError`
around a `Geod.inv` call in this function recovers locally by zeroing
the affected values, exactly as in the source.  Rational division by
zero yields `0` in Lean; the source would raise `ZeroDivisionError` if
the backend returned a zero length for points that are not
`have_same_coords`, a case no theorem below relies on. -/
def distance_point_to_line (geod : GeodInv) (sqrtQ : SqrtFn)
    (line_start line_end point : NodeRef) : ℚ × DMode :=
  let lsl : ℚ × ℚ × ℚ :=
    if have_same_coords (some line_start) (some line_end) then (0, 0, 0)
    else
      match geod line_start line_end with
      | .ok (_, _, L) =>
          ((line_end.x - line_start.x) / L, (line_end.y - line_start.y) / L, L)
      | .error _ => (0, 0, 0)
  let line_segment_x := lsl.1
  let line_segment_y := lsl.2.1
  let start_to_point_x := point.x - line_start.x
  let start_to_point_y := point.y - line_start.y
  let projection_scalar := start_to_point_x * line_segment_x + start_to_point_y * line_segment_y
  if projection_scalar < 0 then
    match geod line_start point with
    | .ok (_, _, d) => (d, .single line_start)
    | .error _ => (0, .single line_start)
  else
    let end_to_point_x := point.x - line_end.x
    let end_to_point_y := point.y - line_end.y
    let segment_length :=
      match geod line_end point with
      | .ok (_, _, d) => d
      | .error _ => 0
    let projection_scalar2 := end_to_point_x * (-line_segment_x) + end_to_point_y * (-line_segment_y)
    if projection_scalar2 < 0 then (segment_length, .single line_end)
    else (sqrtQ |segment_length ^ 2 - projection_scalar2 ^ 2|, .seg line_start line_end projection_scalar)

/-- `distance_mode_point_line` (`geo/geo_utils.py`, lines 249–262). -/
def distance_mode_point_line (geod : GeodInv) (sqrtQ : SqrtFn)
    (line_start line_end point : NodeRef) : ℚ × DMode :=
  distance_point_to_line geod sqrtQ line_start line_end point

/-- `distance_point_line` (`geo/geo_utils.py`, lines 264–277). -/
def distance_point_line (geod : GeodInv) (sqrtQ : SqrtFn)
    (line_start line_end point : NodeRef) : ℚ :=
  (distance_point_to_line geod sqrtQ line_start line_end point).1

/-! ## Douglas–Peucker line generalization (`app/douglas_peucker.py`)

The generalizer works on a way segment, i.e. a list of nodes; the only
thing it reads from the nodes is their chord distance through
`geo.geo_utils.distance_point_line`.  We embed the loop generically over
the element type `α` and a distance function `dist a f p` standing for
`distance_point_line(way_segment[anchor], way_segment[floater],
way_segment[i])`, then instantiate with `distance_point_line`.

The Python loop keeps `floater` equal to the top of the stack at every
loop entry, so the state is `(anchor, stack, new_way)`; the stack is
kept head-first (Python appends/pops at the right end of the list). -/

/-- One update of the inner `for`-loop of `douglas_peucker`:
`if distance > max_distance: max_distance, farthest = distance, i`. -/
def dpStep {α : Type} [Inhabited α] (dist : α → α → α → ℚ) (seg : List α)
    (anchor floater : ℕ) (md : ℚ × ℕ) (i : ℕ) : ℚ × ℕ :=
  if md.1 < dist (seg.getD anchor default) (seg.getD floater default) (seg.getD i default)
  then (dist (seg.getD anchor default) (seg.getD floater default) (seg.getD i default), i)
  else md

/-- The inner `for i in range(anchor + 1, floater)` scan of
`douglas_peucker`: returns `(max_distance, farthest)`, starting from
`(0.0, floater)`. -/
def dpScan {α : Type} [Inhabited α] (dist : α → α → α → ℚ) (seg : List α)
    (anchor floater : ℕ) : ℚ × ℕ :=
  (List.range' (anchor + 1) (floater - (anchor + 1))).foldl
    (dpStep dist seg anchor floater) (0, floater)

/-- The `while stack:` loop of `douglas_peucker`, with explicit fuel.
`none` means the fuel was exhausted. -/
def dpLoop {α : Type} [Inhabited α] (dist : α → α → α → ℚ) (seg : List α)
    (tolerance : ℚ) : ℕ → ℕ → List ℕ → List α → Option (List α)
  | 0, _, _, _ => none
  | fuel + 1, anchor, stack, newWay =>
    match stack with
    | [] => some newWay.reverse
    | floater :: rest =>
      if (dpScan dist seg anchor floater).1 < tolerance then
        -- new_way.append(way_segment[stack.pop()]); anchor = floater; floater = stack[-1]
        dpLoop dist seg tolerance fuel floater rest (seg.getD floater default :: newWay)
      else
        -- floater = farthest; stack.append(floater)
        dpLoop dist seg tolerance fuel anchor
          ((dpScan dist seg anchor floater).2 :: floater :: rest) newWay

/-- `douglas_peucker(way_segment, tolerance)` (`app/douglas_peucker.py`,
lines 30–55), generic over the chord-distance function.  The source
raises `IndexError` on an empty segment; this embedding is only used on
segments with at least one node. -/
def douglas_peucker {α : Type} [Inhabited α] (dist : α → α → α → ℚ) (seg : List α)
    (tolerance : ℚ) (fuel : ℕ) : Option (List α) :=
  dpLoop dist seg tolerance fuel 0 [seg.length - 1] [seg.getD 0 default]

/-- `douglas_peucker` exactly as in the source: the chord distance is
`geo.geo_utils.distance_point_line`, parameterized by the external
geodesic and square-root backends. -/
def douglas_peucker_src (geod : GeodInv) (sqrtQ : SqrtFn)
    (way_segment : List NodeRef) (tolerance : ℚ) (fuel : ℕ) : Option (List NodeRef) :=
  douglas_peucker (fun a f p => distance_point_line geod sqrtQ a f p)
    way_segment tolerance fuel

/-- The source loop diverges on this input: no fuel value makes it
return. -/
def dpDiverges {α : Type} [Inhabited α] (dist : α → α → α → ℚ) (seg : List α)
    (tolerance : ℚ) : Prop :=
  ∀ fuel, douglas_peucker dist seg tolerance fuel = none

/-- Termination measure for the `douglas_peucker` loop: the stack is
strictly increasing from top to bottom with bottom `n - 1`, and every
entry exceeds `anchor`. -/
def dpMeasure (n anchor : ℕ) (stack : List ℕ) : ℕ :=
  ((n - 1) - anchor) * (n + 2) + (stack.headD 0 - anchor)

/-! ### Concrete external backends for counterexample runs

The divergence counterexamples below only ever evaluate the geodesic
backend on pairs of identical points, where `pyproj.Geod.inv` returns a
zero distance, and the square-root backend at `0`, where `math.sqrt`
returns exactly `0.0`.  These executable stand-ins agree with the real
backends on those inputs. -/

/-- Geodesic backend stand-in: taxicab distance on the planar
coordinates (in particular, distance `0` for identical points, like
`pyproj.Geod.inv`). -/
def geodTaxicab : GeodInv := fun p q => .ok (0, 0, |q.x - p.x| + |q.y - p.y|)

/-- Square-root backend stand-in, exact at the only argument the
counterexample runs reach (`0`, where `math.sqrt` is exactly `0.0`). -/
def sqrtAtZero : SqrtFn := fun q => if q = 0 then 0 else q

/-- A concrete node at the origin. -/
def nodeO : NodeRef := ⟨1, 0, 0, 0, 0, []⟩

/-- A second concrete node, distinct from `nodeO`. -/
def nodeE : NodeRef := ⟨2, 1, 0, 100, 0, []⟩

/-! ## Further geometry kernel functions (`geo/geo_utils.py`)

`min`/`max` of two Python floats, and truthiness of an optional
string-valued tag lookup (`None` and `''` are falsy). -/

/-- Python `min(a, b)`. -/
def pymin (a b : ℚ) : ℚ := if a ≤ b then a else b

/-- Python `max(a, b)`. -/
def pymax (a b : ℚ) : ℚ := if a ≥ b then a else b

/-- Python `abs(x)` on a float. -/
def pyabs (a : ℚ) : ℚ := if a < 0 then -a else a

/-- Truthiness of an optional string (Python: `None` and `''` are
falsy). -/
def truthy : Option String → Bool
  | none => false
  | some s => s ≠ ""

/-- `dict.get(key)` on a tag/attribute map kept as an association
list. -/
def tagsGet (tags : List (String × String)) (k : String) : Option String :=
  (tags.find? (fun p => p.1 == k)).map (·.2)

/-- `key in dict` on a tag/attribute map. -/
def tagsHas (tags : List (String × String)) (k : String) : Bool :=
  (tags.find? (fun p => p.1 == k)).isSome

/-- `dict.setdefault(key, value)`. -/
def setdefault (attr : List (String × String)) (k v : String) :
    List (String × String) :=
  if tagsHas attr k then attr else attr ++ [(k, v)]

/-! ## OSM store model (`geo/osm_import.py`)

The arena of `Node` and `Way` objects.  A `NodeRec` is a full mutable
`Node`: its immutable part (`ref`), attributes, partition id, filtered
flag and neighbour list (stored as node ids; the source stores object
references into the same arena).  A `WayRec` is a `Way`: id, node-id
list, the parallel list of member `NodeRef`s (the source's
`__node_objects`; only their immutable parts are ever read through a
way), tags, attributes, partition id and filtered flag.  The bounding
box and the spatial index geometry are not modelled; the street spatial
index appears only as the list of way ids it contains. -/

structure NodeRec where
  ref : NodeRef
  attr : List (String × String)
  partition_id : ℤ
  filtered : Bool
  neighbours : List ℤ
  deriving DecidableEq, Repr, Inhabited

structure WayRec where
  way_id : ℤ
  nodeIDs : List ℤ
  nodes : List NodeRef
  tags : List (String × String)
  attr : List (String × String)
  partition_id : ℤ
  filtered : Bool
  deriving DecidableEq, Repr, Inhabited

/-- The `OSM_objects` store: the node arena (`__node_avl`), the way
arena (`__way_avl`), the raw relation keys (`__relations.keys()`) and
the street spatial index (`__street_tree`), reduced to the ids it
holds. -/
structure OSMState where
  nodes : List NodeRec
  ways : List WayRec
  relationKeys : List ℤ
  streetTree : List ℤ
  deriving DecidableEq, Repr, Inhabited

/-- Node lookup by id (`__node_avl.get(node_id)`; `none` plays the role
of the `None` default). -/
def getNode? (st : OSMState) (i : ℤ) : Option NodeRec :=
  st.nodes.find? (fun n => n.ref.node_id == i)

/-- Way lookup by id. -/
def getWay? (st : OSMState) (i : ℤ) : Option WayRec :=
  st.ways.find? (fun w => w.way_id == i)

/-- In-place mutation of the node object with the given id. -/
def setNode (st : OSMState) (i : ℤ) (f : NodeRec → NodeRec) : OSMState :=
  { st with nodes := st.nodes.map (fun n => if n.ref.node_id == i then f n else n) }

/-- In-place mutation of the way object with the given id. -/
def setWay (st : OSMState) (i : ℤ) (f : WayRec → WayRec) : OSMState :=
  { st with ways := st.ways.map (fun w => if w.way_id == i then f w else w) }

/-- `min_key()` of an AVL tree / `min()` of a key list: `ValueError` on
an empty container. -/
def minKey (l : List ℤ) : Except PyErr ℤ :=
  match l with
  | [] => .error .valueError
  | x :: xs => .ok (xs.foldl min x)

/-- `max_key()` of an AVL tree / `max()` of a key list: `ValueError` on
an empty container. -/
def maxKey (l : List ℤ) : Except PyErr ℤ :=
  match l with
  | [] => .error .valueError
  | x :: xs => .ok (xs.foldl max x)

/-- `OSM_objects.find_new_key` (`geo/osm_import.py`, lines 934–959):
`keys` is `[node min, node max, way min, way max]`, extended with the
relation key min/max when relations exist; the result is `-1` when
`min(keys) >= 0` and `min(keys) - 1` otherwise.  `min_key()` on an
empty AVL tree raises (matching `minKey`). -/
def find_new_key (st : OSMState) : Except PyErr ℤ :=
  match st.nodes.map (fun n => n.ref.node_id), st.ways.map (fun w => w.way_id) with
  | [], _ => .error .valueError
  | _, [] => .error .valueError
  | a :: as, b :: bs =>
    let nmin := as.foldl min a
    let nmax := as.foldl max a
    let wmin := bs.foldl min b
    let wmax := bs.foldl max b
    let m :=
      match st.relationKeys with
      | [] => [nmax, wmin, wmax].foldl min nmin
      | r :: rs => [nmax, wmin, wmax, rs.foldl min r, rs.foldl max r].foldl min nmin
    if 0 ≤ m then .ok (-1) else .ok (m - 1)

/-- All ids present in the store: node ids, way ids and relation
keys. -/
def allIds (st : OSMState) : List ℤ :=
  st.nodes.map (fun n => n.ref.node_id) ++ st.ways.map (fun w => w.way_id) ++
    st.relationKeys

/-- The UTM projection backend (`pyproj.Proj`), an external
collaborator mapping `(lon, lat)` to planar `(x, y)`. -/
def UtmProj : Type := ℚ → ℚ → ℚ × ℚ

/-- The geodesic forward backend `pyproj.Geod.fwd`:
`(lon, lat, azimuth, distance) ↦ (lon', lat', back_azimuth)`. -/
def GeodFwd : Type := ℚ → ℚ → ℚ → ℚ → ℚ × ℚ × ℚ

/-- `float('%.7f' % x)`: rounding to 7 decimal places. -/
def round7 (q : ℚ) : ℚ := (round (q * 10 ^ 7) : ℤ) / 10 ^ 7

/-- `OSM_objects.insert_new_node(lat, lon, tags, attr)`
(`geo/osm_import.py`, lines 847–859).  Returns the state together with
the id of the created node (the source returns the node object). -/
def insert_new_node (utm : UtmProj) (st : OSMState) (lat lon : ℚ)
    (tags attr : List (String × String)) : OSMState × Except PyErr ℤ :=
  match find_new_key st with
  | .error e => (st, .error e)
  | .ok osm_id =>
    let attr' := setdefault attr "version" "1"
    let nd : NodeRec :=
      { ref := ⟨osm_id, lon, lat, (utm lon lat).1, (utm lon lat).2, tags⟩
        attr := attr', partition_id := 0, filtered := false, neighbours := [] }
    ({ st with nodes := st.nodes ++ [nd] }, .ok osm_id)

/-- The node-resolution and neighbour-linking loop of `Way.__init__`
(`geo/osm_import.py`, lines 289–311): resolves each node id (an
unresolvable id makes the `None` result fail with `AttributeError` at
the first attribute access), collects the member `NodeRef`s, and for a
way tagged `highway` links consecutive nodes as mutual neighbours.
Mutations made before a failure stay in the returned state. -/
def wayInitNodes (isStreet : Bool) :
    List ℤ → OSMState → Option ℤ → List NodeRef → OSMState × Except PyErr (List NodeRef)
  | [], st, _, acc => (st, .ok acc.reverse)
  | node_id :: restIds, st, lastNode, acc =>
    match getNode? st node_id with
    | none => (st, .error .attributeError)
    | some nrec =>
      match isStreet, lastNode with
      | true, some lastId =>
        let st1 := setNode st node_id (fun n => { n with neighbours := n.neighbours ++ [lastId] })
        let st2 := setNode st1 lastId (fun n => { n with neighbours := n.neighbours ++ [node_id] })
        wayInitNodes isStreet restIds st2 (some node_id) (nrec.ref :: acc)
      | _, _ =>
        wayInitNodes isStreet restIds st (some node_id) (nrec.ref :: acc)

/-- `OSM_objects.append_new_street(tags, nodes, attr)`
(`geo/osm_import.py`, lines 861–874), including the `Way.__init__`
neighbour linking.  Returns the id of the created way (the source
returns the way object). -/
def append_new_street (st : OSMState) (tags : List (String × String))
    (nodeIds : List ℤ) (attr : List (String × String)) : OSMState × Except PyErr ℤ :=
  match find_new_key st with
  | .error e => (st, .error e)
  | .ok osm_id =>
    let attr' := setdefault attr "version" "1"
    match wayInitNodes (tagsHas tags "highway") nodeIds st none [] with
    | (st1, .error e) => (st1, .error e)
    | (st1, .ok refs) =>
      let way : WayRec :=
        { way_id := osm_id, nodeIDs := nodeIds, nodes := refs, tags := tags
          attr := attr', partition_id := 0, filtered := false }
      ({ st1 with ways := st1.ways ++ [way], streetTree := st1.streetTree ++ [osm_id] },
        .ok osm_id)

/-- `connect_by_node(osm_object, node, street_node)`
(`geo/geo_utils.py`, lines 397–424).  The two nodes are given by id;
the source reads `node.node_id` and `street_node.node_id` to build the
new way's node list.  Returns the id of the created `footway` way. -/
def connect_by_node (st : OSMState) (node_id street_node_id : ℤ) :
    OSMState × Except PyErr ℤ :=
  match append_new_street st [("highway", "footway")] [node_id, street_node_id]
      [("visible", "true")] with
  | (st1, .error e) => (st1, .error e)
  | (st1, .ok wayId) =>
    match getNode? st1 node_id, getNode? st1 street_node_id with
    | some nrec, some srec =>
      if nrec.partition_id > 0 then
        (setWay st1 wayId (fun w => { w with partition_id := nrec.partition_id }), .ok wayId)
      else
        let st2 := setWay st1 wayId (fun w => { w with partition_id := srec.partition_id })
        let st3 := setNode st2 node_id (fun n => { n with partition_id := srec.partition_id })
        (st3, .ok wayId)
    | _, _ => (st1, .error .attributeError)

/-- Python `list.remove(x)`: removes the first occurrence, `ValueError`
if absent. -/
def pyRemove (l : List ℤ) (x : ℤ) : Except PyErr (List ℤ) :=
  if x ∈ l then .ok (l.erase x) else .error .valueError

/-- `list.index(x)`: index of the first occurrence, `ValueError` if
absent. -/
def pyIndex (l : List ℤ) (x : ℤ) : Except PyErr ℕ :=
  match l.findIdx? (fun y => y == x) with
  | some i => .ok i
  | none => .error .valueError

/-- `list.index(x, 1)`: first occurrence at position ≥ 1. -/
def pyIndexFrom1 (l : List ℤ) (x : ℤ) : Except PyErr ℕ :=
  match (l.drop 1).findIdx? (fun y => y == x) with
  | some i => .ok (i + 1)
  | none => .error .valueError

/-- `Way.insert_node(segment_start, segment_end, node)`
(`geo/osm_import.py`, lines 454–484): splice a new node into a way
between two existing member nodes and rewire the adjacency.  The
`assert` comparing the id-list indices with the object-list indices is
automatically satisfied here because the model keeps `nodeIDs` and
`nodes` in lockstep; the asserted relation `index_start = index_end - 1`
is checked and raises `AssertionError` when violated. -/
def wayInsert_node (st : OSMState) (way_id : ℤ)
    (segment_start segment_end node : NodeRef) : OSMState × Except PyErr Unit :=
  match getWay? st way_id with
  | none => (st, .error .attributeError)
  | some w =>
    match pyIndex w.nodeIDs segment_start.node_id,
        pyIndexFrom1 w.nodeIDs segment_end.node_id with
    | .ok index_start, .ok index_end =>
      if index_start = index_end - 1 then
        let st1 := setWay st way_id (fun wr =>
          { wr with
            nodeIDs := wr.nodeIDs.insertIdx index_end node.node_id
            nodes := wr.nodes.insertIdx index_end node })
        match pyRemove (match getNode? st1 segment_start.node_id with
            | some n => n.neighbours | none => []) segment_end.node_id with
        | .error e => (st1, .error e)
        | .ok ns1 =>
          let st2 := setNode st1 segment_start.node_id
            (fun n => { n with neighbours := ns1 ++ [node.node_id] })
          match pyRemove (match getNode? st2 segment_end.node_id with
              | some n => n.neighbours | none => []) segment_start.node_id with
          | .error e => (st2, .error e)
          | .ok ns2 =>
            let st3 := setNode st2 segment_end.node_id
              (fun n => { n with neighbours := ns2 ++ [node.node_id] })
            let st4 := setNode st3 node.node_id
              (fun n => { n with neighbours :=
                n.neighbours ++ [segment_start.node_id, segment_end.node_id] })
            (st4, .ok ())
      else (st, .error .assertionError)
    | .error e, _ => (st, .error e)
    | _, .error e => (st, .error e)

/-- `connect_by_projection(osm_object, node, street, mode)`
(`geo/geo_utils.py`, lines 344–395).  `none` results model the
source's `False`; a created way is returned by id.  In the
length-1-mode branch the source calls `connect_by_node(node, mode[0])`
with its first required argument (`osm_object`) missing, which raises
`TypeError` at call time, before any mutation. -/
def connect_by_projection (geod : GeodInv) (fwd : GeodFwd) (utm : UtmProj)
    (st : OSMState) (node_id : ℤ) (street : Option ℤ) (mode : Option DMode) :
    OSMState × Except PyErr (Option ℤ) :=
  match street, mode with
  | none, _ => (st, .ok none)
  | _, none => (st, .ok none)
  | some street_id, some m =>
    match m with
    | .single _ => (st, .error .typeError)
    | .seg start_node end_node projection_length =>
      match geod start_node end_node with
      | .error _ => (st, .error .valueError)
      | .ok (azimuth_f, _, _) =>
        let fw := fwd start_node.lon start_node.lat azimuth_f projection_length
        let new_lon := round7 fw.1
        let new_lat := round7 fw.2.1
        match insert_new_node utm st new_lat new_lon [] [("visible", "true")] with
        | (st1, .error e) => (st1, .error e)
        | (st1, .ok new_id) =>
          match getWay? st1 street_id with
          | none => (st1, .error .attributeError)
          | some srec =>
            let st2 := setNode st1 new_id
              (fun n => { n with partition_id := srec.partition_id })
            match getNode? st2 new_id with
            | none => (st2, .error .attributeError)
            | some newRec =>
              match wayInsert_node st2 street_id start_node end_node newRec.ref with
              | (st3, .error e) => (st3, .error e)
              | (st3, .ok _) =>
                match connect_by_node st3 node_id new_id with
                | (st4, .error e) => (st4, .error e)
                | (st4, .ok wayId) => (st4, .ok (some wayId))

/-! ## Street/POI search (`geo/geo_utils.py`, `app/poi.py`) -/

/-- The float literal `1e400`, which overflows to `inf`; used as the
initial minimum in the nearest-search loops. -/
def INF : ℚ := 10 ^ 400

/-- `distance_node_street(node, street)` (`geo/geo_utils.py`, lines
279–300): minimum over the way's segments of
`distance_mode_point_line`; `(1e400, None)` when the way has fewer than
two member nodes. -/
def distance_node_street (geod : GeodInv) (sqrtQ : SqrtFn) (node : NodeRef)
    (street : WayRec) : ℚ × Option DMode :=
  (List.range (street.nodes.length - 1)).foldl
    (fun md i =>
      let dm := distance_mode_point_line geod sqrtQ (street.nodes.getD i default)
        (street.nodes.getD (i + 1) default) node
      if dm.1 < md.1 then (dm.1, some dm.2) else md)
    (INF, none)

/-- `get_nearest_street(node, streets)` (`geo/geo_utils.py`, lines
323–342). -/
def get_nearest_street (geod : GeodInv) (sqrtQ : SqrtFn) (node : NodeRef)
    (streets : List WayRec) : Option WayRec × ℚ × Option DMode :=
  streets.foldl
    (fun acc street =>
      let dm := distance_node_street geod sqrtQ node street
      if dm.1 < acc.2.1 then (some street, dm.1, dm.2) else acc)
    (none, INF, none)

/-- The inner loop of `get_nearest_street_node`: fold `distance_points`
over one street's member nodes, propagating its possible exception. -/
def nearestNodeScan (geod : GeodInv) (node : NodeRef) :
    List NodeRef → (Option NodeRef × ℚ) → Except PyErr (Option NodeRef × ℚ)
  | [], acc => .ok acc
  | sn :: rest, acc =>
    match distance_points geod node sn with
    | .error e => .error e
    | .ok (_, _, d) =>
      nearestNodeScan geod node rest (if d < acc.2 then (some sn, d) else acc)

/-- The outer loop of `get_nearest_street_node` over the street list. -/
def nearestNodeStreets (geod : GeodInv) (node : NodeRef) :
    List WayRec → (Option NodeRef × ℚ) → Except PyErr (Option NodeRef × ℚ)
  | [], acc => .ok acc
  | street :: rest, acc =>
    match nearestNodeScan geod node street.nodes acc with
    | .error e => .error e
    | .ok acc' => nearestNodeStreets geod node rest acc'

/-- `get_nearest_street_node(node, streets)` (`geo/geo_utils.py`, lines
302–321). -/
def get_nearest_street_node (geod : GeodInv) (node : NodeRef)
    (streets : List WayRec) : Except PyErr (Option NodeRef × ℚ) :=
  nearestNodeStreets geod node streets (none, INF)

/-- `Poi.get_street_by_name(name, streets)` (`app/poi.py`, lines
90–104): `none` for a falsy name (`None` or `''`), otherwise the
(possibly empty) list of streets whose `name` tag equals it. -/
def get_street_by_name (name : Option String) (streets : List WayRec) :
    Option (List WayRec) :=
  match name with
  | none => none
  | some s =>
    if s = "" then none
    else some (streets.filter (fun w => tagsGet w.tags "name" == some s))

/-- `Poi.connect_with_nearest_street(poi_node, streets,
projection_threshold)` (`app/poi.py`, lines 238–269). -/
def connect_with_nearest_street (geod : GeodInv) (sqrtQ : SqrtFn) (fwd : GeodFwd)
    (utm : UtmProj) (st : OSMState) (poi_node : NodeRef) (streets : List WayRec)
    (projection_threshold : ℚ) : OSMState × Except PyErr (Option ℤ) :=
  match streets with
  | [] => (st, .ok none)
  | _ :: _ =>
    match get_nearest_street geod sqrtQ poi_node streets with
    | (_, _, none) => (st, .error .typeError)      -- len(None) raises
    | (_, _, some (.single m)) =>
      match connect_by_node st poi_node.node_id m.node_id with
      | (st1, .error e) => (st1, .error e)
      | (st1, .ok wayId) => (st1, .ok (some wayId))
    | (none, _, some (.seg _ _ _)) => (st, .error .attributeError)  -- None.nodes
    | (some nearest_street, street_distance, some (.seg a b p)) =>
      match get_nearest_street_node geod poi_node [nearest_street] with
      | .error e => (st, .error e)
      | .ok (nearest_node?, node_distance) =>
        if node_distance - street_distance < projection_threshold then
          match nearest_node? with
          | none => (st, .error .attributeError)    -- None.node_id in connect_by_node's list
          | some nearest_node =>
            match connect_by_node st poi_node.node_id nearest_node.node_id with
            | (st1, .error e) => (st1, .error e)
            | (st1, .ok wayId) => (st1, .ok (some wayId))
        else
          connect_by_projection geod fwd utm st poi_node.node_id
            (some nearest_street.way_id) (some (.seg a b p))

/-- `Poi.connect_by_address(poi_node, address, streets,
projection_threshold, address_threshold)` (`app/poi.py`, lines
190–218). -/
def connect_by_address (geod : GeodInv) (sqrtQ : SqrtFn) (fwd : GeodFwd)
    (utm : UtmProj) (st : OSMState) (poi_node : NodeRef) (address : Option String)
    (streets : List WayRec) (projection_threshold address_threshold : ℚ) :
    OSMState × Except PyErr (Option ℤ) :=
  match get_street_by_name address streets with
  | some (w :: ws) =>
    let named_streets := w :: ws
    let ad := get_nearest_street geod sqrtQ poi_node named_streets
    let nd := get_nearest_street geod sqrtQ poi_node streets
    if ad.2.1 - nd.2.1 < address_threshold then
      connect_with_nearest_street geod sqrtQ fwd utm st poi_node named_streets
        projection_threshold
    else
      connect_with_nearest_street geod sqrtQ fwd utm st poi_node streets
        projection_threshold
  | some [] =>
    connect_with_nearest_street geod sqrtQ fwd utm st poi_node streets
      projection_threshold
  | none =>
    connect_with_nearest_street geod sqrtQ fwd utm st poi_node streets
      projection_threshold

/-! ## Area, building and polygon tests (`geo/geo_utils.py`) -/

/-- `is_area(way)` (`geo/geo_utils.py`, lines 98–108):
`way.nodeIDs[0] == way.nodeIDs[-1]`; `IndexError` on an empty id
list. -/
def is_area (way : WayRec) : Except PyErr Bool :=
  match way.nodeIDs with
  | [] => .error .indexError
  | x :: xs => .ok (decide (x = xs.getLastD x))

/-- `is_building(building)` (`geo/geo_utils.py`, lines 110–122). -/
def is_building (building : Option WayRec) : Except PyErr Bool :=
  match building with
  | none => .ok false
  | some b =>
    match is_area b with
    | .error e => .error e
    | .ok a => .ok (a && (tagsGet b.tags "building" == some "yes"))

/-- `get_building_entrance(building)` (`geo/geo_utils.py`, lines
80–96).  The source collects the entrance nodes in a Python `set`,
whose iteration order is unspecified; the model keeps them in way
order. -/
def get_building_entrance (building : Option WayRec) :
    Except PyErr (Option (List NodeRef)) :=
  match building with
  | none => .ok none
  | some b =>
    match is_building (some b) with
    | .error e => .error e
    | .ok true =>
      .ok (some (b.nodes.filter (fun n => tagsGet n.tags "building" == some "entrance")))
    | .ok false => .ok none

/-- One iteration of the even-odd-rule loop of `is_inside_polygon`
(`geo/geo_utils.py`, lines 152–161), threading the `intersections`
counter, the `xinters` local (unassigned before its first write:
reading it then is a `NameError`) and the previous vertex `p1`. -/
def eoStep (nx ny : ℚ) (p2 : ℚ × ℚ) :
    (ℕ × Option ℚ × (ℚ × ℚ)) → Except PyErr (ℕ × Option ℚ × (ℚ × ℚ))
  | (intersections, xinters, p1) =>
    if ny > pymin p1.2 p2.2 then
      if ny ≤ pymax p1.2 p2.2 then
        if nx ≤ pymax p1.1 p2.1 then
          let xinters' :=
            if p1.2 ≠ p2.2 then
              some ((ny - p1.2) * (p2.1 - p1.1) / (p2.2 - p1.2) + p1.1)
            else xinters
          if p1.1 = p2.1 then .ok (intersections + 1, xinters', p2)
          else
            match xinters' with
            | none => .error .nameError
            | some xv =>
              if nx ≤ xv then .ok (intersections + 1, xinters', p2)
              else .ok (intersections, xinters', p2)
        else .ok (intersections, xinters, p2)
      else .ok (intersections, xinters, p2)
    else .ok (intersections, xinters, p2)

/-- The `for i in range(n + 1)` loop of `is_inside_polygon`. -/
def eoLoop (nx ny : ℚ) (polygon : List NodeRef) (n : ℕ) :
    List ℕ → (ℕ × Option ℚ × (ℚ × ℚ)) → Except PyErr ℕ
  | [], acc => .ok acc.1
  | i :: rest, acc =>
    let p2node := polygon.getD (i % n) default
    match eoStep nx ny (p2node.x, p2node.y) acc with
    | .error e => .error e
    | .ok acc' => eoLoop nx ny polygon n rest acc'

/-- `is_inside_polygon(node, way)` (`geo/geo_utils.py`, lines
124–163). -/
def is_inside_polygon (node : NodeRef) (way : WayRec) : Except PyErr Bool :=
  match is_area way with
  | .error e => .error e
  | .ok false => .ok false
  | .ok true =>
    match way.nodes with
    | [] => .error .indexError       -- polygon[0] on an empty object list
    | p0 :: _ =>
      let n := way.nodes.length
      match eoLoop node.x node.y way.nodes n (List.range (n + 1)) (0, none, (p0.x, p0.y)) with
      | .error e => .error e
      | .ok intersections => .ok (decide (intersections % 2 ≠ 0))

/-- The direct-connection test of `Poi.connect_poi` (`app/poi.py`,
line 304): the POI is connected straight to the nearest street node
exactly when `have_same_coords(poi_node, nearest_node)` holds. -/
def connect_poi_direct_condition (poi_node : NodeRef)
    (nearest_node : Option NodeRef) : Bool :=
  have_same_coords (some poi_node) nearest_node

/-- The entrance loop of `Poi.connect_by_building` (`app/poi.py`,
lines 165–178): each entrance is first linked to the POI by
`connect_by_node`, then `connected` is overwritten with the outcome of
the address/nearest-street connection for that entrance. -/
def cbbEntranceLoop (geod : GeodInv) (sqrtQ : SqrtFn) (fwd : GeodFwd)
    (utm : UtmProj) (poi_node : NodeRef) (poi_address building_address : Option String)
    (streets : List WayRec) (projection_threshold address_threshold : ℚ) :
    List NodeRef → OSMState → Option ℤ → OSMState × Except PyErr (Option ℤ)
  | [], st, connected => (st, .ok connected)
  | entrance :: rest, st, _ =>
    match connect_by_node st poi_node.node_id entrance.node_id with
    | (st1, .error e) => (st1, .error e)
    | (st1, .ok _) =>
      let entrance_address := tagsGet entrance.tags "addr:street"
      let step :=
        if truthy entrance_address then
          connect_by_address geod sqrtQ fwd utm st1 entrance entrance_address streets
            projection_threshold address_threshold
        else if truthy poi_address then
          connect_by_address geod sqrtQ fwd utm st1 entrance poi_address streets
            projection_threshold address_threshold
        else if truthy building_address then
          connect_by_address geod sqrtQ fwd utm st1 entrance building_address streets
            projection_threshold address_threshold
        else
          connect_with_nearest_street geod sqrtQ fwd utm st1 entrance streets
            projection_threshold
      match step with
      | (st2, .error e) => (st2, .error e)
      | (st2, .ok c) =>
        cbbEntranceLoop geod sqrtQ fwd utm poi_node poi_address building_address
          streets projection_threshold address_threshold rest st2 c

/-- `Poi.connect_by_building(poi_node, building, streets,
projection_threshold, address_threshold)` (`app/poi.py`, lines
137–188).  The guard
`if not (is_building(building) and is_inside_polygon(poi_node, building))`
short-circuits: for a non-building the polygon test is never
evaluated. -/
def connect_by_building (geod : GeodInv) (sqrtQ : SqrtFn) (fwd : GeodFwd)
    (utm : UtmProj) (st : OSMState) (poi_node : NodeRef) (building : Option WayRec)
    (streets : List WayRec) (projection_threshold address_threshold : ℚ) :
    OSMState × Except PyErr (Option ℤ) :=
  match is_building building with
  | .error e => (st, .error e)
  | .ok false => (st, .ok none)
  | .ok true =>
    match building with
    | none => (st, .ok none)    -- unreachable: is_building none = ok false
    | some b =>
      match is_inside_polygon poi_node b with
      | .error e => (st, .error e)
      | .ok false => (st, .ok none)
      | .ok true =>
        let building_address := tagsGet b.tags "addr:street"
        match get_building_entrance (some b) with
        | .error e => (st, .error e)
        | .ok entrance? =>
          let poi_address := tagsGet poi_node.tags "addr:street"
          match entrance? with
          | some (e0 :: es) =>
            cbbEntranceLoop geod sqrtQ fwd utm poi_node poi_address building_address
              streets projection_threshold address_threshold (e0 :: es) st none
          | _ =>
            if truthy poi_address then
              connect_by_address geod sqrtQ fwd utm st poi_node poi_address streets
                projection_threshold address_threshold
            else if truthy building_address then
              connect_by_address geod sqrtQ fwd utm st poi_node building_address streets
                projection_threshold address_threshold
            else
              connect_with_nearest_street geod sqrtQ fwd utm st poi_node streets
                projection_threshold

/-! ## Partition labeling (`app/partition.py`, `PartitionFinder.breadth_first_search`)

The labeling pass reads only each node's partition id, filtered flag
and neighbour list, and each street's filtered flag and node list; it
writes node partition ids, street partition ids and the partition
table.  The model therefore separates the static graph (`BGraph`:
adjacency and filtered-node set, both fixed during one labeling pass)
from the mutable state (`BState`: node partition ids keyed by node id,
street partition ids by street position, the partition dictionary and
the partition-id counter). -/

structure BStreet where
  filtered : Bool
  nodeIds : List ℤ
  deriving DecidableEq, Repr, Inhabited

structure BGraph where
  nbrs : List (ℤ × List ℤ)
  filteredNodes : List ℤ
  deriving DecidableEq, Repr, Inhabited

/-- `node.neighbours` for the node with the given id. -/
def BGraph.nbrsOf (G : BGraph) (i : ℤ) : List ℤ :=
  ((G.nbrs.find? (fun p => p.1 == i)).map (·.2)).getD []

/-- `node.filtered` for the node with the given id. -/
def BGraph.isFilt (G : BGraph) (i : ℤ) : Bool :=
  G.filteredNodes.contains i

/-- A partition object: its node set and street set (street objects
are identified by their position in the street list), kept as lists in
insertion order. -/
structure BPart where
  pnodes : List ℤ
  pstreets : List ℕ
  deriving DecidableEq, Repr, Inhabited

structure BState where
  pids : List (ℤ × ℤ)
  streetPids : List ℤ
  parts : List (ℤ × BPart)
  counter : ℤ
  deriving DecidableEq, Repr, Inhabited

/-- `node.partition_id` read from the state. -/
def lookupPid : List (ℤ × ℤ) → ℤ → ℤ
  | [], _ => 0
  | p :: t, i => if p.1 = i then p.2 else lookupPid t i

/-- `node.partition_id = v`. -/
def updatePid : List (ℤ × ℤ) → ℤ → ℤ → List (ℤ × ℤ)
  | [], _, _ => []
  | p :: t, i, v => (if p.1 = i then (p.1, v) else p) :: updatePid t i v

/-- `self.__partitions.get(pid)` followed by `.add_node(node)`:
`none` models the `AttributeError` of calling a method on `None`. -/
def partsAddNode (parts : List (ℤ × BPart)) (pid nid : ℤ) :
    Option (List (ℤ × BPart)) :=
  if (parts.find? (fun p => p.1 == pid)).isSome then
    some (parts.map (fun p =>
      if p.1 == pid then (p.1, { p.2 with pnodes := p.2.pnodes ++ [nid] }) else p))
  else none

/-- `self.__partitions.get(pid).add_street(street)`. -/
def partsAddStreet (parts : List (ℤ × BPart)) (pid : ℤ) (sidx : ℕ) :
    Option (List (ℤ × BPart)) :=
  if (parts.find? (fun p => p.1 == pid)).isSome then
    some (parts.map (fun p =>
      if p.1 == pid then (p.1, { p.2 with pstreets := p.2.pstreets ++ [sidx] }) else p))
  else none

/-- `self.__partitions.setdefault(pid, Partition(pid))`. -/
def partsSetdefault (parts : List (ℤ × BPart)) (pid : ℤ) : List (ℤ × BPart) :=
  if (parts.find? (fun p => p.1 == pid)).isSome then parts
  else parts ++ [(pid, ⟨[], []⟩)]

/-- Result of a labeling run: normal completion, a propagated Python
exception, or exhausted fuel. -/
inductive BfsOut (α : Type) where
  | ok (a : α)
  | pyerr (e : PyErr)
  | fuelOut
  deriving DecidableEq, Repr

/-- The `while node_queue:` flood-fill loop of `breadth_first_search`
(`app/partition.py`, lines 225–248), with explicit fuel; returns the
state and the remaining fuel. -/
def bfsInner (G : BGraph) (curPid : ℤ) :
    ℕ → List ℤ → BState → BfsOut (BState × ℕ)
  | 0, _, _ => .fuelOut
  | fuel + 1, [], st => .ok (st, fuel)
  | fuel + 1, node :: queue, st =>
    if lookupPid st.pids node > 0 then
      bfsInner G curPid fuel queue st
    else if lookupPid st.pids node == -1 && G.isFilt node then
      bfsInner G curPid fuel
        (queue ++ (G.nbrsOf node).filter (fun nb => ! G.isFilt nb))
        { st with pids := updatePid st.pids node curPid }
    else if G.isFilt node then
      bfsInner G curPid fuel queue st
    else
      match partsAddNode st.parts curPid node with
      | none => .pyerr .attributeError
      | some parts' => bfsInner G curPid fuel (queue ++ G.nbrsOf node)
          { st with pids := updatePid st.pids node curPid, parts := parts' }

/-- The `for street in streets:` loop of `breadth_first_search`
(`app/partition.py`, lines 186–248); streets are paired with their
position. -/
def bfsStreets (G : BGraph) :
    List (ℕ × BStreet) → ℕ → BState → BfsOut BState
  | [], _, st => .ok st
  | (sidx, street) :: rest, fuel, st =>
    if street.filtered then bfsStreets G rest fuel st
    else
      match street.nodeIds with
      | [] => .pyerr .indexError
      | first :: _ =>
        if lookupPid st.pids first > 0 then
          match partsAddStreet st.parts (lookupPid st.pids first) sidx with
          | none => .pyerr .attributeError
          | some parts' =>
            bfsStreets G rest fuel
              { st with streetPids := st.streetPids.set sidx (lookupPid st.pids first)
                        parts := parts' }
        else
          match partsAddStreet (partsSetdefault st.parts (st.counter + 1))
              (st.counter + 1) sidx with
          | none => .pyerr .attributeError
          | some parts' =>
            match bfsInner G (st.counter + 1) fuel street.nodeIds
                { st with counter := st.counter + 1
                          streetPids := st.streetPids.set sidx (st.counter + 1)
                          parts := parts' } with
            | .fuelOut => .fuelOut
            | .pyerr e => .pyerr e
            | .ok (st3, fuel') => bfsStreets G rest fuel' st3

/-- `PartitionFinder.breadth_first_search(streets)` (`app/partition.py`,
lines 180–248). -/
def breadth_first_search (G : BGraph) (streets : List BStreet) (fuel : ℕ)
    (st : BState) : BfsOut BState :=
  bfsStreets G streets.enum fuel st

/-- The final partition id of a node after a labeling run, `none` when
the run did not complete normally. -/
def bfsPidOf (r : BfsOut BState) (n : ℤ) : Option ℤ :=
  match r with
  | .ok st => some (lookupPid st.pids n)
  | _ => none

/-- Nodes `a` and `b` are consecutive (in either order) in the node
list of street `s`: the edge `a – b` belongs to `s`. -/
def pairAdjIn (s : BStreet) (a b : ℤ) : Bool :=
  (List.range s.nodeIds.length).any (fun i =>
    (s.nodeIds.get? i == some a && s.nodeIds.get? (i + 1) == some b) ||
    (s.nodeIds.get? i == some b && s.nodeIds.get? (i + 1) == some a))

/-- Reachability from a non-filtered street way, ignoring edges of
filtered streets: the nodes of non-filtered streets are reachable, and
reachability propagates across an edge of a non-filtered street. -/
inductive Reach (streets : List BStreet) : ℤ → Prop where
  | base {s : BStreet} {n : ℤ} : s ∈ streets → s.filtered = false →
      n ∈ s.nodeIds → Reach streets n
  | step {s : BStreet} {a b : ℤ} : Reach streets a → s ∈ streets →
      s.filtered = false → pairAdjIn s a b = true → Reach streets b


/-! ### Concrete labeling worlds

`streetsC5`/`graphC5`/`stateC5`: two kept streets `T = [0,1]` and
`S = [1,2,3,4]` and two filtered streets `F1 = [2,5]`, `F2 = [3,6]`;
nodes `2,3,5,6` carry the filtered mark and partition id `-1`, exactly
the state `filter_streets` leaves behind.  `streetW`/`graphW`/`stateW`
is a minimal world with one street. -/

def streetT : BStreet := ⟨false, [0, 1]⟩
def streetS : BStreet := ⟨false, [1, 2, 3, 4]⟩
def streetF1 : BStreet := ⟨true, [2, 5]⟩
def streetF2 : BStreet := ⟨true, [3, 6]⟩
def streetsC5 : List BStreet := [streetT, streetS, streetF1, streetF2]
def graphC5 : BGraph :=
  ⟨[(0, [1]), (1, [0, 2]), (2, [1, 3, 5]), (3, [2, 4, 6]), (4, [3]), (5, [2]), (6, [3])],
   [2, 3, 5, 6]⟩
def stateC5 : BState :=
  ⟨[(0, 0), (1, 0), (2, -1), (3, -1), (4, 0), (5, -1), (6, -1)], [0, 0, -1, -1], [], 0⟩

def streetW : BStreet := ⟨false, [1, 2]⟩
def graphW : BGraph := ⟨[(1, [2]), (2, [1])], []⟩
def stateW : BState := ⟨[(1, 0), (2, 0)], [0], [], 0⟩

/-- The state `breadth_first_search graphW [streetW] 100 stateW`
reaches (checked by evaluation in the witness below). -/
def stateWFinal : BState := ⟨[(1, 1), (2, 1)], [1], [(1, ⟨[1, 2], [0]⟩)], 1⟩


/-- Node a hair away from `nodeO`: with `nodeO` it is a
near-coincident pair of the kind on which `pyproj.Geod.inv` raises
`ValueError` (pyproj issue #18). -/
def nodeNearO : NodeRef := ⟨3, 0, 1 / 10 ^ 12, 0, 1 / 10 ^ 10, []⟩

/-- The geodesic backend's behavior on such a pair: it raises. -/
def geodFailing : GeodInv := fun _ _ => .error ()

/-- POI at the origin. -/
def poiC3 : NodeRef := ⟨10, 0, 0, 0, 0, []⟩

/-- Street node with the same longitude as `poiC3` but latitude `5`. -/
def nearC3 : NodeRef := ⟨11, 0, 5, 0, 553000, []⟩

/-- The partition id of the node with the given id, if present. -/
def pidOfNode (st : OSMState) (i : ℤ) : Option ℤ :=
  (getNode? st i).map (·.partition_id)

/-- Node record with id 1 in partition 1. -/
def recA : NodeRec := ⟨⟨1, 0, 0, 0, 0, []⟩, [], 1, false, []⟩

/-- Node record with id 2 in partition 2. -/
def recB : NodeRec := ⟨⟨2, 1, 0, 1, 0, []⟩, [], 2, false, []⟩

/-- Store holding `recA`, `recB` and one existing way. -/
def stC4 : OSMState := ⟨[recA, recB], [⟨50, [], [], [], [], 0, false⟩], [], [50]⟩

/-- Identity stand-in for the UTM projection backend. -/
def utmFlat : UtmProj := fun lon lat => (lon, lat)

/-- Trivial stand-in for the geodesic forward backend. -/
def fwdFlat : GeodFwd := fun lon lat _ _ => (lon, lat, 0)

/-- A small store with one node (id 7) and one way (id 20). -/
def stC8 : OSMState := ⟨[⟨⟨7, 0, 0, 0, 0, []⟩, [], 0, false, []⟩],
  [⟨20, [], [], [], [], 0, false⟩], [], []⟩

/-- POI node at the planar origin. -/
def poiC7 : NodeRef := ⟨100, 0, 0, 0, 0, []⟩

/-- First member node of the unnamed street, 5 units from the POI. -/
def u1C7 : NodeRef := ⟨1, 1, 0, 5, 0, []⟩

/-- Second member node of the unnamed street. -/
def u2C7 : NodeRef := ⟨2, 2, 0, 6, 0, []⟩

/-- First member node of the named street, 10 units from the POI. -/
def m1C7 : NodeRef := ⟨3, 3, 0, 10, 0, []⟩

/-- Second member node of the named street. -/
def m2C7 : NodeRef := ⟨4, 4, 0, 11, 0, []⟩

/-- An unnamed street near the POI. -/
def wayU : WayRec := ⟨70, [1, 2], [u1C7, u2C7], [], [], 0, false⟩

/-- A street named `Main St`, farther from the POI. -/
def wayM : WayRec := ⟨71, [3, 4], [m1C7, m2C7], [("name", "Main St")], [], 0, false⟩

/-- The candidate street list for the address test. -/
def streetsC7 : List WayRec := [wayU, wayM]

/-- Store holding the POI node and the unnamed street's first node. -/
def stC7 : OSMState :=
  ⟨[⟨poiC7, [], 0, false, []⟩, ⟨u1C7, [], 0, false, []⟩, ⟨m1C7, [], 0, false, []⟩],
    [⟨60, [], [], [], [], 0, false⟩], [], [60]⟩

/-- An open way (distinct first and last node ids) tagged as a
building. -/
def wayC10 : WayRec := ⟨30, [1, 2], [nodeO, nodeE], [("building", "yes")], [], 0, false⟩

end MoSP

/-! # Theorems -/


namespace MoSP

section DPProofs

variable {α : Type} [Inhabited α]

theorem dpStep_foldl_eq_or_mem (dist : α → α → α → ℚ) (seg : List α) (a f : ℕ) :
    ∀ (l : List ℕ) (init : ℚ × ℕ),
      l.foldl (dpStep dist seg a f) init = init ∨
        (l.foldl (dpStep dist seg a f) init).2 ∈ l := by
  intro l
  induction l with
  | nil => intro init; exact Or.inl rfl
  | cons x xs ih =>
    intro init
    simp only [List.foldl_cons]
    rcases ih (dpStep dist seg a f init x) with h | h
    · rw [h]
      unfold dpStep
      split
      · exact Or.inr (by simp)
      · exact Or.inl rfl
    · exact Or.inr (List.mem_cons_of_mem _ h)

theorem dpScan_not_lt_bounds (dist : α → α → α → ℚ) (seg : List α) (tol : ℚ)
    (htol : 0 < tol) (a f : ℕ) (h : ¬ (dpScan dist seg a f).1 < tol) :
    a < (dpScan dist seg a f).2 ∧ (dpScan dist seg a f).2 < f := by
  unfold dpScan at h ⊢
  rcases dpStep_foldl_eq_or_mem dist seg a f (List.range' (a + 1) (f - (a + 1))) (0, f)
    with heq | hmem
  · rw [heq] at h
    exact absurd htol h
  · have := List.mem_range'_1.mp hmem
    omega

theorem map_getD_shift (x : α) (xs : List α) :
    ∀ (idx : List ℕ), (∀ j ∈ idx, 0 < j) →
      idx.map (fun j => (x :: xs).getD j default) =
        (idx.map (fun j => j - 1)).map (fun j => xs.getD j default) := by
  intro idx h
  rw [List.map_map]
  apply List.map_congr_left
  intro j hj
  have h0 := h j hj
  cases j with
  | zero => omega
  | succ k => simp [List.getD_cons_succ]

theorem map_getD_sublist : ∀ (l : List α) (idx : List ℕ),
    idx.Pairwise (· < ·) → (∀ i ∈ idx, i < l.length) →
    (idx.map (fun i => l.getD i default)).Sublist l := by
  intro l
  induction l with
  | nil =>
    intro idx _ hb
    cases idx with
    | nil => simp
    | cons i t => exact absurd (hb i (List.mem_cons_self _ _)) (by simp)
  | cons x xs ih =>
    intro idx hp hb
    cases idx with
    | nil => exact List.nil_sublist _
    | cons i rest =>
      rcases Nat.eq_zero_or_pos i with rfl | hipos
      · have hrest : ∀ j ∈ rest, 0 < j := fun j hj => List.rel_of_pairwise_cons hp hj
        simp only [List.map_cons, List.getD_cons_zero]
        rw [map_getD_shift x xs rest hrest]
        refine List.Sublist.cons₂ x (ih _ ?_ ?_)
        · rw [List.pairwise_map]
          refine (List.Pairwise.and_mem.mp hp.of_cons).imp ?_
          rintro a b ⟨ha, hb', hlt⟩
          have := hrest a ha
          omega
        · intro j hj
          simp only [List.mem_map] at hj
          obtain ⟨j', hj', rfl⟩ := hj
          have h1 := hb j' (List.mem_cons_of_mem _ hj')
          have h2 := hrest j' hj'
          simp only [List.length_cons] at h1
          omega
      · have hall : ∀ j ∈ i :: rest, 0 < j := by
          intro j hj
          rcases List.mem_cons.mp hj with rfl | hj'
          · exact hipos
          · exact lt_trans hipos (List.rel_of_pairwise_cons hp hj')
        rw [map_getD_shift x xs _ hall]
        refine List.Sublist.cons x (ih _ ?_ ?_)
        · rw [List.pairwise_map]
          refine (List.Pairwise.and_mem.mp hp).imp ?_
          rintro a b ⟨ha, hb', hlt⟩
          have := hall a ha
          omega
        · intro j hj
          simp only [List.mem_map] at hj
          obtain ⟨j', hj', rfl⟩ := hj
          have h1 := hb j' hj'
          have h2 := hall j' hj'
          simp only [List.length_cons] at h1
          omega

theorem dpLoop_total (dist : α → α → α → ℚ) (seg : List α) (tol : ℚ) (htol : 0 < tol) :
    ∀ (k anchor : ℕ) (stack em : List ℕ),
      dpMeasure seg.length anchor stack ≤ k →
      stack ≠ [] →
      stack.Pairwise (· < ·) →
      (∀ x ∈ stack, anchor < x ∧ x ≤ seg.length - 1) →
      stack.getLast? = some (seg.length - 1) →
      em.head? = some anchor →
      em.Pairwise (· > ·) →
      (∀ i ∈ em, i ≤ seg.length - 1) →
      em.getLast? = some 0 →
      ∃ (fuel : ℕ) (em' : List ℕ),
        dpLoop dist seg tol fuel anchor stack
            (em.map (fun i => seg.getD i default)) =
          some ((em'.map (fun i => seg.getD i default)).reverse) ∧
        em'.head? = some (seg.length - 1) ∧
        em'.Pairwise (· > ·) ∧
        (∀ i ∈ em', i ≤ seg.length - 1) ∧
        em'.getLast? = some 0 := by
  intro k
  induction k with
  | zero =>
    intro anchor stack em hk hne hp hx hlast _ _ _ _
    exfalso
    obtain ⟨f, rest, rfl⟩ : ∃ f rest, stack = f :: rest := by
      cases stack with
      | nil => exact absurd rfl hne
      | cons a b => exact ⟨a, b, rfl⟩
    have hmem : seg.length - 1 ∈ f :: rest := by
      have h1 := List.getLast_mem_getLast? (l := f :: rest) (by simp)
      rw [hlast] at h1
      have h2 : (f :: rest).getLast (by simp) = seg.length - 1 := by
        simpa using h1.symm
      rw [← h2]
      exact List.getLast_mem _
    have h3 := hx _ hmem
    have hP : seg.length + 2 ≤ (seg.length - 1 - anchor) * (seg.length + 2) :=
      Nat.le_mul_of_pos_left _ (by omega)
    unfold dpMeasure at hk
    omega
  | succ k ih =>
    intro anchor stack em hk hne hp hx hlast hemh hemp hemb heml
    obtain ⟨f, rest, rfl⟩ : ∃ f rest, stack = f :: rest := by
      cases stack with
      | nil => exact absurd rfl hne
      | cons a b => exact ⟨a, b, rfl⟩
    obtain ⟨emtl, rfl⟩ : ∃ emtl, em = anchor :: emtl := by
      cases em with
      | nil => simp at hemh
      | cons a b =>
        have hab : a = anchor := by simpa using hemh
        exact ⟨b, by rw [hab]⟩
    have haf : anchor < f ∧ f ≤ seg.length - 1 := hx f (List.mem_cons_self _ _)
    by_cases hacc : (dpScan dist seg anchor f).1 < tol
    · -- accept branch
      cases rest with
      | nil =>
        -- stack becomes empty: finish in two steps
        have hf : f = seg.length - 1 := by simpa using hlast
        refine ⟨2, f :: anchor :: emtl, ?_, by rw [List.head?_cons, hf], ?_, ?_, ?_⟩
        · show dpLoop dist seg tol 2 anchor [f] _ = _
          rw [show (2 : ℕ) = 1 + 1 from rfl, dpLoop]
          simp only [hacc, if_true]
          rw [dpLoop]
          simp
        · refine List.Pairwise.cons ?_ hemp
          intro b hb
          rcases List.mem_cons.mp hb with rfl | hb'
          · exact haf.1
          · exact lt_trans (List.rel_of_pairwise_cons hemp hb') haf.1
        · intro i hi
          rcases List.mem_cons.mp hi with rfl | hi'
          · exact haf.2
          · exact hemb i hi'
        · rw [List.getLast?_cons_cons]
          exact heml
      | cons r rest' =>
        have hfr : f < r := List.rel_of_pairwise_cons hp (List.mem_cons_self _ _)
        have hrb := hx r (List.mem_cons_of_mem _ (List.mem_cons_self _ _))
        have hlast' : (r :: rest').getLast? = some (seg.length - 1) := by
          rw [← List.getLast?_cons_cons (a := f)]
          exact hlast
        have hmu1 : dpMeasure seg.length f (r :: rest') <
            dpMeasure seg.length anchor (f :: r :: rest') := by
          unfold dpMeasure
          simp only [List.headD_cons]
          have e1 : (seg.length - 1) - f + 1 ≤ (seg.length - 1) - anchor := by omega
          calc ((seg.length - 1) - f) * (seg.length + 2) + (r - f)
              < ((seg.length - 1) - f) * (seg.length + 2) + (seg.length + 2) := by omega
            _ = ((seg.length - 1) - f + 1) * (seg.length + 2) := by ring
            _ ≤ ((seg.length - 1) - anchor) * (seg.length + 2) :=
                Nat.mul_le_mul_right _ e1
            _ ≤ ((seg.length - 1) - anchor) * (seg.length + 2) + (f - anchor) :=
                Nat.le_add_right _ _
        have hmu : dpMeasure seg.length f (r :: rest') ≤ k := by omega
        obtain ⟨fuel, em', hrun, p1, p2, p3, p4⟩ :=
          ih f (r :: rest') (f :: anchor :: emtl) hmu (by simp) hp.of_cons
            (fun x hx' =>
              ⟨List.rel_of_pairwise_cons hp hx', (hx x (List.mem_cons_of_mem _ hx')).2⟩)
            hlast' rfl
            (by
              refine List.Pairwise.cons ?_ hemp
              intro b hb
              rcases List.mem_cons.mp hb with rfl | hb'
              · exact haf.1
              · exact lt_trans (List.rel_of_pairwise_cons hemp hb') haf.1)
            (by
              intro i hi
              rcases List.mem_cons.mp hi with rfl | hi'
              · exact haf.2
              · exact hemb i hi')
            (by rw [List.getLast?_cons_cons]; exact heml)
        refine ⟨fuel + 1, em', ?_, p1, p2, p3, p4⟩
        rw [dpLoop]
        simp only [hacc, if_true]
        exact hrun
    · -- push branch
      have hbounds := dpScan_not_lt_bounds dist seg tol htol anchor f hacc
      have hmu : dpMeasure seg.length anchor
          ((dpScan dist seg anchor f).2 :: f :: rest) ≤ k := by
        unfold dpMeasure at hk ⊢
        simp only [List.headD_cons] at hk ⊢
        omega
      obtain ⟨fuel, em', hrun, p1, p2, p3, p4⟩ :=
        ih anchor ((dpScan dist seg anchor f).2 :: f :: rest) (anchor :: emtl) hmu (by simp)
          (by
            refine List.Pairwise.cons ?_ hp
            intro b hb
            rcases List.mem_cons.mp hb with rfl | hb'
            · exact hbounds.2
            · exact lt_trans hbounds.2 (List.rel_of_pairwise_cons hp hb'))
          (by
            intro x hx'
            rcases List.mem_cons.mp hx' with rfl | hx''
            · exact ⟨hbounds.1, by have := haf.2; omega⟩
            · exact hx x hx'')
          (by rw [List.getLast?_cons_cons]; exact hlast)
          hemh hemp hemb heml
      refine ⟨fuel + 1, em', ?_, p1, p2, p3, p4⟩
      rw [dpLoop]
      simp only [hacc, if_false]
      exact hrun

end DPProofs

end MoSP

namespace MoSP

section DPMain

theorem list_head?_eq_getD {α : Type} [Inhabited α] (l : List α) (h : 1 ≤ l.length) :
    l.head? = some (l.getD 0 default) := by
  cases l with
  | nil => simp at h
  | cons x xs => rfl

theorem list_getLast?_eq_getD {α : Type} [Inhabited α] (l : List α) (h : 1 ≤ l.length) :
    l.getLast? = some (l.getD (l.length - 1) default) := by
  have hlt : l.length - 1 < l.length := by omega
  rw [List.getLast?_eq_getElem?, List.getD_eq_getElem?_getD, List.getElem?_eq_getElem hlt]
  rfl

theorem dpScan_lt_of_all_lt {α : Type} [Inhabited α] (dist : α → α → α → ℚ) (seg : List α)
    (tol : ℚ) (htol : 0 < tol) (a f : ℕ)
    (h : ∀ i ∈ List.range' (a + 1) (f - (a + 1)),
      dist (seg.getD a default) (seg.getD f default) (seg.getD i default) < tol) :
    (dpScan dist seg a f).1 < tol := by
  unfold dpScan
  suffices H : ∀ (l : List ℕ) (init : ℚ × ℕ), init.1 < tol →
      (∀ i ∈ l, dist (seg.getD a default) (seg.getD f default) (seg.getD i default) < tol) →
      (l.foldl (dpStep dist seg a f) init).1 < tol from
    H _ _ htol h
  intro l
  induction l with
  | nil => intro init h0 _; exact h0
  | cons x xs ih =>
    intro init h0 hall
    simp only [List.foldl_cons]
    refine ih _ ?_ (fun i hi => hall i (List.mem_cons_of_mem _ hi))
    unfold dpStep
    split
    · exact hall x (List.mem_cons_self _ _)
    · exact h0

/-- Amended claim C1: for every strictly positive tolerance,
`douglas_peucker` terminates on every way segment with at least two
nodes, and its result is an ordered subsequence of the input beginning
with the segment's first node and ending with its last node. -/
theorem douglas_peucker_terminates_pos_tol (geod : GeodInv) (sqrtQ : SqrtFn)
    (way_segment : List NodeRef) (tolerance : ℚ)
    (h2 : 2 ≤ way_segment.length) (htol : 0 < tolerance) :
    ∃ (fuel : ℕ) (out : List NodeRef),
      douglas_peucker_src geod sqrtQ way_segment tolerance fuel = some out ∧
      out.Sublist way_segment ∧
      out.head? = way_segment.head? ∧
      out.getLast? = way_segment.getLast? := by
  obtain ⟨fuel, em', hrun, p1, p2, p3, p4⟩ :=
    dpLoop_total (fun a f p => distance_point_line geod sqrtQ a f p) way_segment tolerance htol
      (dpMeasure way_segment.length 0 [way_segment.length - 1]) 0
      [way_segment.length - 1] [0] le_rfl (by simp)
      (List.pairwise_singleton _ _)
      (by intro x hx; simp only [List.mem_singleton] at hx; subst hx; omega)
      (by simp)
      rfl (List.pairwise_singleton _ _)
      (by intro i hi; simp only [List.mem_singleton] at hi; omega)
      (by simp)
  refine ⟨fuel, _, hrun, ?_, ?_, ?_⟩
  · rw [← List.map_reverse]
    refine map_getD_sublist way_segment em'.reverse ?_ ?_
    · rw [List.pairwise_reverse]
      exact p2
    · intro i hi
      have := p3 i (List.mem_reverse.mp hi)
      omega
  · rw [List.head?_reverse, List.getLast?_map, p4, list_head?_eq_getD way_segment (by omega)]
    rfl
  · rw [List.getLast?_reverse, List.head?_map, p1,
      list_getLast?_eq_getD way_segment (by omega)]
    rfl

/-- Witness for `douglas_peucker_terminates_pos_tol` at a concrete
two-node segment and tolerance `1`. -/
theorem douglas_peucker_terminates_pos_tol_witness :
    2 ≤ ([nodeO, nodeE] : List NodeRef).length ∧ (0 : ℚ) < 1 ∧
    ∃ (fuel : ℕ) (out : List NodeRef),
      douglas_peucker_src geodTaxicab sqrtAtZero [nodeO, nodeE] 1 fuel = some out ∧
      out.Sublist [nodeO, nodeE] ∧
      out.head? = ([nodeO, nodeE] : List NodeRef).head? ∧
      out.getLast? = ([nodeO, nodeE] : List NodeRef).getLast? :=
  ⟨by decide, by norm_num,
    douglas_peucker_terminates_pos_tol geodTaxicab sqrtAtZero [nodeO, nodeE] 1
      (by decide) (by norm_num)⟩

theorem dpLoop_twoNode_tolZero (dist : NodeRef → NodeRef → NodeRef → ℚ) :
    ∀ (fuel : ℕ) (rest : List ℕ) (acc : List NodeRef),
      dpLoop dist [nodeO, nodeE] 0 fuel 0 (1 :: rest) acc = none := by
  intro fuel
  induction fuel with
  | zero => intro rest acc; rfl
  | succ fuel ih =>
    intro rest acc
    rw [dpLoop]
    have hscan : dpScan dist [nodeO, nodeE] 0 1 = (0, 1) := rfl
    rw [hscan, if_neg (lt_irrefl (0 : ℚ))]
    exact ih (1 :: rest) acc

/-- Counterexample to claim C1 as stated: at tolerance `0` (a tolerance
value the claim includes), `douglas_peucker` never terminates, already
on a two-node way segment. -/
theorem douglas_peucker_tol_zero_diverges :
    2 ≤ ([nodeO, nodeE] : List NodeRef).length ∧
    dpDiverges (fun a f p => distance_point_line geodTaxicab sqrtAtZero a f p)
      [nodeO, nodeE] 0 :=
  ⟨by decide, fun fuel => dpLoop_twoNode_tolZero _ fuel [] [nodeO]⟩

theorem dpLoop_threeIdent_tolZero :
    ∀ (fuel : ℕ) (rest : List ℕ) (acc : List NodeRef),
      dpLoop (fun a f p => distance_point_line geodTaxicab sqrtAtZero a f p)
        [nodeO, nodeO, nodeO] 0 fuel 0 (2 :: rest) acc = none := by
  have hscan : dpScan (fun a f p => distance_point_line geodTaxicab sqrtAtZero a f p)
      [nodeO, nodeO, nodeO] 0 2 = (0, 2) := by with_unfolding_all decide
  intro fuel
  induction fuel with
  | zero => intro rest acc; rfl
  | succ fuel ih =>
    intro rest acc
    rw [dpLoop, hscan, if_neg (lt_irrefl (0 : ℚ))]
    exact ih (2 :: rest) acc

/-- Counterexample to claim C6 as stated: on the three-node segment
whose nodes all coincide, every interior deviation computed by
`distance_point_line` is `0`, so tolerance `0` satisfies
"tolerance ≥ maximum perpendicular deviation"; yet `douglas_peucker`
diverges instead of returning `[first, last]`. -/
theorem douglas_peucker_tol_eq_maxdev_fails :
    distance_point_line geodTaxicab sqrtAtZero nodeO nodeO nodeO = 0 ∧
    dpDiverges (fun a f p => distance_point_line geodTaxicab sqrtAtZero a f p)
      [nodeO, nodeO, nodeO] 0 :=
  ⟨by with_unfolding_all decide, fun fuel => dpLoop_threeIdent_tolZero fuel [] [nodeO]⟩

/-- Amended claim C6: if the tolerance strictly exceeds every interior
point's deviation from the chord between the first and last nodes (in
particular strictly exceeds `0`), `douglas_peucker` returns exactly
`[first, last]`. -/
theorem douglas_peucker_exact_endpoints (geod : GeodInv) (sqrtQ : SqrtFn)
    (way_segment : List NodeRef) (tolerance : ℚ)
    (h2 : 2 ≤ way_segment.length) (htol : 0 < tolerance)
    (hdev : ∀ i, 0 < i → i < way_segment.length - 1 →
      distance_point_line geod sqrtQ (way_segment.getD 0 default)
        (way_segment.getD (way_segment.length - 1) default)
        (way_segment.getD i default) < tolerance) :
    douglas_peucker_src geod sqrtQ way_segment tolerance 2 =
      some [way_segment.getD 0 default, way_segment.getD (way_segment.length - 1) default] := by
  have hscan : (dpScan (fun a f p => distance_point_line geod sqrtQ a f p)
      way_segment 0 (way_segment.length - 1)).1 < tolerance := by
    refine dpScan_lt_of_all_lt _ _ _ htol _ _ ?_
    intro i hi
    have := List.mem_range'_1.mp hi
    exact hdev i (by omega) (by omega)
  show dpLoop _ way_segment tolerance 2 0 [way_segment.length - 1]
      [way_segment.getD 0 default] = _
  rw [show (2 : ℕ) = 0 + 1 + 1 from rfl, dpLoop]
  simp only [hscan, if_true]
  rw [dpLoop]
  rfl

/-- Witness for `douglas_peucker_exact_endpoints` at a concrete
two-node segment and tolerance `1`. -/
theorem douglas_peucker_exact_endpoints_witness :
    2 ≤ ([nodeO, nodeE] : List NodeRef).length ∧ (0 : ℚ) < 1 ∧
    douglas_peucker_src geodTaxicab sqrtAtZero [nodeO, nodeE] 1 2 = some [nodeO, nodeE] :=
  ⟨by decide, by norm_num,
    douglas_peucker_exact_endpoints geodTaxicab sqrtAtZero [nodeO, nodeE] 1
      (by decide) (by norm_num)
      (fun i h1 h2 => absurd (by simpa using h2) (by omega))⟩

end DPMain

end MoSP

namespace MoSP

section BFSProofs

theorem lookupPid_updatePid_ne (l : List (ℤ × ℤ)) (i v n : ℤ) (h : n ≠ i) :
    lookupPid (updatePid l i v) n = lookupPid l n := by
  induction l with
  | nil => rfl
  | cons p t ih =>
    simp only [updatePid, lookupPid]
    by_cases hpi : p.1 = i
    · have h1 : ¬ (p.1 = n) := by omega
      rw [if_pos hpi]
      rw [if_neg (show ¬ ((p.1, v).1 = n) from h1), if_neg h1]
      exact ih
    · rw [if_neg hpi]
      by_cases hpn : p.1 = n
      · rw [if_pos hpn, if_pos hpn]
      · rw [if_neg hpn, if_neg hpn]
        exact ih

theorem lookupPid_updatePid_self (l : List (ℤ × ℤ)) (i v : ℤ) :
    lookupPid (updatePid l i v) i = v ∨
      lookupPid (updatePid l i v) i = lookupPid l i := by
  induction l with
  | nil => right; rfl
  | cons p t ih =>
    simp only [updatePid, lookupPid]
    by_cases hpi : p.1 = i
    · rw [if_pos hpi]
      rw [if_pos (show ((p.1, v).1 = i) from hpi), if_pos hpi]
      left; rfl
    · rw [if_neg hpi]
      rw [if_neg hpi, if_neg hpi]
      exact ih

theorem lookupPid_updatePid_cases (l : List (ℤ × ℤ)) (i v n : ℤ) :
    lookupPid (updatePid l i v) n = lookupPid l n ∨
      (n = i ∧ lookupPid (updatePid l i v) n = v) := by
  by_cases h : n = i
  · subst h
    rcases lookupPid_updatePid_self l n v with h1 | h1
    · exact Or.inr ⟨rfl, h1⟩
    · exact Or.inl h1
  · exact Or.inl (lookupPid_updatePid_ne l i v n h)

theorem lookupPid_nonpos (l : List (ℤ × ℤ)) (h : ∀ pr ∈ l, pr.2 ≤ 0) (n : ℤ) :
    lookupPid l n ≤ 0 := by
  induction l with
  | nil => simp [lookupPid]
  | cons p t ih =>
    simp only [lookupPid]
    by_cases hp : p.1 = n
    · rw [if_pos hp]
      exact h p (List.mem_cons_self _ _)
    · rw [if_neg hp]
      exact ih (fun pr hpr => h pr (List.mem_cons_of_mem _ hpr))

theorem pairAdjIn_mem (s : BStreet) (a b : ℤ) (h : pairAdjIn s a b = true) :
    a ∈ s.nodeIds ∧ b ∈ s.nodeIds := by
  unfold pairAdjIn at h
  rw [List.any_eq_true] at h
  obtain ⟨i, _, hi⟩ := h
  rcases Bool.or_eq_true_iff.mp hi with h' | h' <;>
    rcases Bool.and_eq_true_iff.mp h' with ⟨h1, h2⟩ <;>
    rw [beq_iff_eq] at h1 h2
  · exact ⟨List.get?_mem h1, List.get?_mem h2⟩
  · exact ⟨List.get?_mem h2, List.get?_mem h1⟩

/-- An adjacency-list edge whose two ends are not both filtered comes
from a non-filtered street, so reachability propagates across it. -/
theorem reach_of_nbr (streets : List BStreet) (G : BGraph)
    (hadj : ∀ pr ∈ G.nbrs, ∀ q ∈ pr.2, ∃ s ∈ streets, pairAdjIn s pr.1 q = true)
    (hfilt : ∀ s ∈ streets, s.filtered = true → ∀ p ∈ s.nodeIds, G.isFilt p = true)
    (node nb : ℤ) (hr : Reach streets node) (hnb : nb ∈ G.nbrsOf node)
    (hok : G.isFilt node = false ∨ G.isFilt nb = false) :
    Reach streets nb := by
  unfold BGraph.nbrsOf at hnb
  cases hfind : G.nbrs.find? (fun p => p.1 == node) with
  | none => rw [hfind] at hnb; simp at hnb
  | some pr =>
    rw [hfind] at hnb
    simp only [Option.map_some', Option.getD_some] at hnb
    have hpr1 : pr.1 = node := by simpa using List.find?_some hfind
    obtain ⟨s, hs, hpair⟩ := hadj pr (List.mem_of_find?_eq_some hfind) nb hnb
    rw [hpr1] at hpair
    have hsf : s.filtered = false := by
      by_contra hc
      have hc' : s.filtered = true := by
        cases hsf' : s.filtered
        · exact absurd hsf' hc
        · rfl
      have hmm := pairAdjIn_mem s node nb hpair
      have f1 := hfilt s hs hc' node hmm.1
      have f2 := hfilt s hs hc' nb hmm.2
      rcases hok with h | h
      · rw [f1] at h; exact absurd h (by simp)
      · rw [f2] at h; exact absurd h (by simp)
    exact Reach.step hr hs hsf hpair

theorem bfsInner_phi (streets : List BStreet) (G : BGraph)
    (hadj : ∀ pr ∈ G.nbrs, ∀ q ∈ pr.2, ∃ s ∈ streets, pairAdjIn s pr.1 q = true)
    (hfilt : ∀ s ∈ streets, s.filtered = true → ∀ p ∈ s.nodeIds, G.isFilt p = true)
    (curPid : ℤ) :
    ∀ (fuel : ℕ) (queue : List ℤ) (st st' : BState) (fuel' : ℕ),
      (∀ q ∈ queue, Reach streets q) →
      (∀ n, lookupPid st.pids n > 0 → Reach streets n) →
      bfsInner G curPid fuel queue st = .ok (st', fuel') →
      (∀ n, lookupPid st'.pids n > 0 → Reach streets n) := by
  intro fuel
  induction fuel with
  | zero =>
    intro queue st st' fuel' _ _ h
    simp [bfsInner] at h
  | succ fuel ih =>
    intro queue st st' fuel' hq hphi hrun
    cases queue with
    | nil =>
      rw [bfsInner] at hrun
      cases hrun
      exact hphi
    | cons node q =>
      have hqt : ∀ x ∈ q, Reach streets x := fun x hx => hq x (List.mem_cons_of_mem _ hx)
      have hrnode : Reach streets node := hq node (List.mem_cons_self _ _)
      rw [bfsInner] at hrun
      split_ifs at hrun with c1 c2 c3
      · exact ih q st st' fuel' hqt hphi hrun
      · -- filtered node with pid -1: relabel, enqueue non-filtered neighbours
        refine ih _ _ st' fuel' ?_ ?_ hrun
        · intro x hx
          rcases List.mem_append.mp hx with hx' | hx'
          · exact hqt x hx'
          · have hx'' := List.mem_filter.mp hx'
            refine reach_of_nbr streets G hadj hfilt node x hrnode hx''.1 (Or.inr ?_)
            simpa using hx''.2
        · intro n hn
          rcases lookupPid_updatePid_cases st.pids node curPid n with hcase | ⟨rfl, hval⟩
          · simp only [hcase] at hn
            exact hphi n hn
          · exact hrnode
      · exact ih q st st' fuel' hqt hphi hrun
      · -- unfiltered unlabeled node: label, add to partition, enqueue all neighbours
        split at hrun
        · cases hrun
        · refine ih _ _ st' fuel' ?_ ?_ hrun
          · intro x hx
            rcases List.mem_append.mp hx with hx' | hx'
            · exact hqt x hx'
            · have hnf : G.isFilt node = false := by
                cases hf : G.isFilt node
                · rfl
                · exact absurd hf c3
              exact reach_of_nbr streets G hadj hfilt node x hrnode hx' (Or.inl hnf)
          · intro n hn
            rcases lookupPid_updatePid_cases st.pids node curPid n with hcase | ⟨rfl, hval⟩
            · simp only [hcase] at hn
              exact hphi n hn
            · exact hrnode

theorem bfsStreets_phi (streets : List BStreet) (G : BGraph)
    (hadj : ∀ pr ∈ G.nbrs, ∀ q ∈ pr.2, ∃ s ∈ streets, pairAdjIn s pr.1 q = true)
    (hfilt : ∀ s ∈ streets, s.filtered = true → ∀ p ∈ s.nodeIds, G.isFilt p = true) :
    ∀ (pending : List (ℕ × BStreet)) (fuel : ℕ) (st st' : BState),
      (∀ pr ∈ pending, pr.2 ∈ streets) →
      (∀ n, lookupPid st.pids n > 0 → Reach streets n) →
      bfsStreets G pending fuel st = .ok st' →
      (∀ n, lookupPid st'.pids n > 0 → Reach streets n) := by
  intro pending
  induction pending with
  | nil =>
    intro fuel st st' _ hphi hrun
    rw [bfsStreets] at hrun
    cases hrun
    exact hphi
  | cons hd rest ih =>
    intro fuel st st' hsub hphi hrun
    obtain ⟨sidx, street⟩ := hd
    have hmem : street ∈ streets := hsub (sidx, street) (List.mem_cons_self _ _)
    have hsubt : ∀ pr ∈ rest, pr.2 ∈ streets :=
      fun pr hpr => hsub pr (List.mem_cons_of_mem _ hpr)
    rw [bfsStreets] at hrun
    split_ifs at hrun with hfiltered
    · exact ih fuel st st' hsubt hphi hrun
    · split at hrun
      · cases hrun
      · rename_i first restIds heq
        split_ifs at hrun with hfirst
        · -- inherit branch: only streetPids/parts change
          split at hrun
          · cases hrun
          · rename_i parts' hparts
            exact ih fuel
              { st with streetPids := st.streetPids.set sidx (lookupPid st.pids first),
                        parts := parts' } st' hsubt hphi hrun
        · -- new partition branch
          split at hrun
          · cases hrun
          · rename_i parts' hparts
            split at hrun
            · cases hrun
            · cases hrun
            · rename_i st3 fuel' hinner
              have hsf : street.filtered = false := by
                cases hf : street.filtered
                · rfl
                · exact absurd hf hfiltered
              have hphi3 : ∀ n, lookupPid st3.pids n > 0 → Reach streets n := by
                refine bfsInner_phi streets G hadj hfilt (st.counter + 1) fuel
                  street.nodeIds
                  { st with counter := st.counter + 1,
                            streetPids := st.streetPids.set sidx (st.counter + 1),
                            parts := parts' } st3 fuel' ?_ hphi hinner
                intro x hx
                exact Reach.base hmem hsf hx
              exact ih fuel' st3 st' hsubt hphi3 hrun

/-- Amended claim C5: after `breadth_first_search` completes from a
store where no node carries a positive partition id, every node that
ends up with a positive partition id is reachable from a non-filtered
street way (the street adjacency `hadj` realizes each graph edge in
some street, and `hfilt` says filtered streets touch only filtered
nodes).  Only this forward direction holds; the converse fails (see the
counterexample). -/
theorem breadth_first_search_phi (streets : List BStreet) (G : BGraph)
    (fuel : ℕ) (st0 st' : BState)
    (hadj : ∀ pr ∈ G.nbrs, ∀ q ∈ pr.2, ∃ s ∈ streets, pairAdjIn s pr.1 q = true)
    (hfilt : ∀ s ∈ streets, s.filtered = true → ∀ p ∈ s.nodeIds, G.isFilt p = true)
    (hinit : ∀ pr ∈ st0.pids, pr.2 ≤ 0)
    (hrun : breadth_first_search G streets fuel st0 = .ok st') :
    ∀ n, lookupPid st'.pids n > 0 → Reach streets n := by
  refine bfsStreets_phi streets G hadj hfilt streets.enum fuel st0 st' ?_ ?_ hrun
  · intro pr hpr
    obtain ⟨i, s⟩ := pr
    have := List.mem_enum hpr
    simp only at this
    rw [this.2]
    exact List.getElem_mem _
  · intro n hn
    exact absurd hn (by have := lookupPid_nonpos st0.pids hinit n; omega)

end BFSProofs

/-- Counterexample to claim C5 as stated: after labeling the
counterexample world, node `4` lies on the non-filtered street `S`
(hence is reachable from a non-filtered street way ignoring filtered
edges), yet its partition id is `0`, not positive: the flood from
street `T` claims the filtered junction `2` but stops there, and street
`S` is merely inherited through its already-labeled first node, so its
nodes behind the filtered junctions are never enqueued. -/
theorem bfs_reachable_node_left_unlabeled :
    bfsPidOf (breadth_first_search graphC5 streetsC5 100 stateC5) 4 = some 0 ∧
    Reach streetsC5 4 :=
  ⟨by with_unfolding_all decide,
    Reach.base (s := streetS) (by simp [streetsC5]) rfl (by simp [streetS])⟩

/-- Witness for `breadth_first_search_phi` on the one-street world. -/
theorem breadth_first_search_phi_witness : Reach [streetW] 1 :=
  breadth_first_search_phi [streetW] graphW 100 stateW stateWFinal
    (by with_unfolding_all decide) (by with_unfolding_all decide)
    (by with_unfolding_all decide) (by with_unfolding_all decide)
    1 (by with_unfolding_all decide)


end MoSP

namespace MoSP

/-- Claim C2 (code bug): when `Geod.inv` fails on near-coincident
points, `distance_points` does not return `(0, 0, 0)` as its docstring
and the spec state: its handler executes `az_f, az_b, distance = 0.0`,
which raises `TypeError` ('float' object is not iterable). -/
theorem distance_points_handler_raises :
    distance_points geodFailing nodeO nodeNearO = .error .typeError ∧
    distance_points geodFailing nodeO nodeNearO ≠ .ok (0, 0, 0) := by
  constructor
  · rfl
  · intro h
    cases h

/-- Claim C3 (code bug): `connect_poi` connects the POI directly to the
nearest street node although their latitudes differ by `5` degrees —
`have_same_coords` compares `point1.lat` with itself (line 78), so only
the longitude difference is checked, contradicting its own docstring. -/
theorem connect_poi_direct_despite_latitude :
    connect_poi_direct_condition poiC3 (some nearC3) = true ∧
    ¬ (|poiC3.lat - nearC3.lat| ≤ TOLERANCE) := by
  constructor
  · with_unfolding_all decide
  · with_unfolding_all decide

/-- Claim C9: with a non-`None` street and a 1-element distance mode,
`connect_by_projection` raises `TypeError` (its fallback calls
`connect_by_node(node, mode[0])` without the required `osm_object`
argument) and leaves the store untouched: no way or node is added. -/
theorem connect_by_projection_single_mode_raises (geod : GeodInv) (fwd : GeodFwd)
    (utm : UtmProj) (st : OSMState) (node_id street_id : ℤ) (m : NodeRef) :
    connect_by_projection geod fwd utm st node_id (some street_id) (some (.single m)) =
      (st, .error .typeError) := rfl

end MoSP

namespace MoSP

section C8Proofs

theorem foldl_min_le : ∀ (t : List ℤ) (a i : ℤ), i ∈ a :: t → t.foldl min a ≤ i := by
  intro t
  induction t with
  | nil =>
    intro a i hi
    simp only [List.mem_singleton] at hi
    subst hi
    simp
  | cons b t ih =>
    intro a i hi
    simp only [List.foldl_cons]
    rcases List.mem_cons.mp hi with rfl | hi'
    · calc t.foldl min (min i b) ≤ min i b := ih (min i b) (min i b) (List.mem_cons_self _ _)
        _ ≤ i := min_le_left _ _
    · rcases List.mem_cons.mp hi' with rfl | hi''
      · calc t.foldl min (min a i) ≤ min a i := ih (min a i) (min a i) (List.mem_cons_self _ _)
          _ ≤ i := min_le_right _ _
      · exact ih (min a b) i (List.mem_cons_of_mem _ hi'')

theorem foldl_min_mem : ∀ (t : List ℤ) (a : ℤ), t.foldl min a ∈ a :: t := by
  intro t
  induction t with
  | nil => intro a; simp
  | cons b t ih =>
    intro a
    simp only [List.foldl_cons]
    have h1 := ih (min a b)
    rcases List.mem_cons.mp h1 with h | h
    · rcases min_choice a b with hc | hc
      · rw [h, hc]; exact List.mem_cons_self _ _
      · rw [h, hc]; exact List.mem_cons_of_mem _ (List.mem_cons_self _ _)
    · exact List.mem_cons_of_mem _ (List.mem_cons_of_mem _ h)

theorem foldl_max_mem : ∀ (t : List ℤ) (a : ℤ), t.foldl max a ∈ a :: t := by
  intro t
  induction t with
  | nil => intro a; simp
  | cons b t ih =>
    intro a
    simp only [List.foldl_cons]
    have h1 := ih (max a b)
    rcases List.mem_cons.mp h1 with h | h
    · rcases max_choice a b with hc | hc
      · rw [h, hc]; exact List.mem_cons_self _ _
      · rw [h, hc]; exact List.mem_cons_of_mem _ (List.mem_cons_self _ _)
    · exact List.mem_cons_of_mem _ (List.mem_cons_of_mem _ h)

theorem ok_ite (c : Prop) [Decidable c] (x y : ℤ) :
    (if c then (Except.ok x : Except PyErr ℤ) else .ok y) = .ok (if c then x else y) := by
  split <;> rfl

/-- `find_new_key` on a store with nodes and ways returns
`-1` / `min - 1` according to the sign of the minimal existing id. -/
theorem find_new_key_min (st : OSMState) (hn : st.nodes ≠ []) (hw : st.ways ≠ []) :
    ∃ m, m ∈ allIds st ∧ (∀ i ∈ allIds st, m ≤ i) ∧
      find_new_key st = .ok (if 0 ≤ m then -1 else m - 1) := by
  obtain ⟨n0, nt, hne⟩ : ∃ n0 nt, st.nodes = n0 :: nt := by
    cases h : st.nodes with
    | nil => exact absurd h hn
    | cons x xs => exact ⟨x, xs, rfl⟩
  obtain ⟨w0, wt, hwe⟩ : ∃ w0 wt, st.ways = w0 :: wt := by
    cases h : st.ways with
    | nil => exact absurd h hw
    | cons x xs => exact ⟨x, xs, rfl⟩
  set a := n0.ref.node_id with ha
  set as := nt.map (fun n => n.ref.node_id) with has
  set b := w0.way_id with hb
  set bs := wt.map (fun w => w.way_id) with hbs
  have hnids : st.nodes.map (fun n => n.ref.node_id) = a :: as := by rw [hne]; rfl
  have hwids : st.ways.map (fun w => w.way_id) = b :: bs := by rw [hwe]; rfl
  have hallids : allIds st = (a :: as) ++ (b :: bs) ++ st.relationKeys := by
    unfold allIds
    rw [hnids, hwids]
  have hnmin_mem : as.foldl min a ∈ a :: as := foldl_min_mem as a
  have hnmax_mem : as.foldl max a ∈ a :: as := foldl_max_mem as a
  have hwmin_mem : bs.foldl min b ∈ b :: bs := foldl_min_mem bs b
  have hwmax_mem : bs.foldl max b ∈ b :: bs := foldl_max_mem bs b
  have hfk : find_new_key st =
      (let m := match st.relationKeys with
        | [] => [as.foldl max a, bs.foldl min b, bs.foldl max b].foldl min (as.foldl min a)
        | r :: rs => [as.foldl max a, bs.foldl min b, bs.foldl max b,
            rs.foldl min r, rs.foldl max r].foldl min (as.foldl min a)
       if 0 ≤ m then .ok (-1) else .ok (m - 1)) := by
    unfold find_new_key
    rw [hnids, hwids]
  cases hrel : st.relationKeys with
  | nil =>
    refine ⟨[as.foldl max a, bs.foldl min b, bs.foldl max b].foldl min (as.foldl min a),
      ?_, ?_, ?_⟩
    · have hm := foldl_min_mem [as.foldl max a, bs.foldl min b, bs.foldl max b] (as.foldl min a)
      rw [hallids, hrel]
      simp only [List.mem_cons, List.not_mem_nil, or_false] at hm
      rcases hm with h | h | h | h <;> rw [h] <;>
        simp only [List.append_nil, List.mem_append]
      · exact Or.inl hnmin_mem
      · exact Or.inl hnmax_mem
      · exact Or.inr hwmin_mem
      · exact Or.inr hwmax_mem
    · intro i hi
      rw [hallids, hrel] at hi
      simp only [List.append_nil, List.mem_append] at hi
      have hle := foldl_min_le [as.foldl max a, bs.foldl min b, bs.foldl max b] (as.foldl min a)
      have h1 := hle _ (List.mem_cons_self _ _)
      have h2 := hle (bs.foldl min b)
        (List.mem_cons_of_mem _ (List.mem_cons_of_mem _ (List.mem_cons_self _ _)))
      rcases hi with h | h
      · have := foldl_min_le as a i h
        omega
      · have := foldl_min_le bs b i h
        omega
    · rw [hfk, hrel]
      exact ok_ite _ _ _
  | cons r rs =>
    refine ⟨[as.foldl max a, bs.foldl min b, bs.foldl max b, rs.foldl min r,
      rs.foldl max r].foldl min (as.foldl min a), ?_, ?_, ?_⟩
    · have hm := foldl_min_mem [as.foldl max a, bs.foldl min b, bs.foldl max b,
        rs.foldl min r, rs.foldl max r] (as.foldl min a)
      rw [hallids, hrel]
      simp only [List.mem_cons, List.not_mem_nil, or_false] at hm
      have hrmin := foldl_min_mem rs r
      have hrmax := foldl_max_mem rs r
      rcases hm with h | h | h | h | h | h <;> rw [h] <;> simp only [List.mem_append]
      · exact Or.inl (Or.inl hnmin_mem)
      · exact Or.inl (Or.inl hnmax_mem)
      · exact Or.inl (Or.inr hwmin_mem)
      · exact Or.inl (Or.inr hwmax_mem)
      · exact Or.inr hrmin
      · exact Or.inr hrmax
    · intro i hi
      rw [hallids, hrel] at hi
      simp only [List.mem_append] at hi
      have hle := foldl_min_le [as.foldl max a, bs.foldl min b, bs.foldl max b,
        rs.foldl min r, rs.foldl max r] (as.foldl min a)
      have h1 := hle _ (List.mem_cons_self _ _)
      have h2 := hle (bs.foldl min b)
        (List.mem_cons_of_mem _ (List.mem_cons_of_mem _ (List.mem_cons_self _ _)))
      have h3 := hle (rs.foldl min r)
        (List.mem_cons_of_mem _ (List.mem_cons_of_mem _ (List.mem_cons_of_mem _
          (List.mem_cons_of_mem _ (List.mem_cons_self _ _)))))
      rcases hi with (h | h) | h
      · have := foldl_min_le as a i h
        omega
      · have := foldl_min_le bs b i h
        omega
      · have := foldl_min_le rs r i h
        omega
    · rw [hfk, hrel]
      exact ok_ite _ _ _

end C8Proofs

end MoSP

namespace MoSP

/-- Claim C8: on a non-empty store, `find_new_key` returns `-1` when
the minimal existing node/way/relation id is non-negative and that
minimum minus one otherwise; the returned id is distinct from every
existing id, and allocating through `insert_new_node` makes the next
`find_new_key` result strictly smaller. -/
theorem find_new_key_spec (utm : UtmProj) (lat lon : ℚ)
    (tags attr : List (String × String)) (st : OSMState)
    (hn : st.nodes ≠ []) (hw : st.ways ≠ []) :
    ∃ k m, find_new_key st = .ok k ∧
      m ∈ allIds st ∧ (∀ i ∈ allIds st, m ≤ i) ∧
      k = (if 0 ≤ m then -1 else m - 1) ∧
      k ∉ allIds st ∧
      (insert_new_node utm st lat lon tags attr).2 = .ok k ∧
      ∃ k2, find_new_key (insert_new_node utm st lat lon tags attr).1 = .ok k2 ∧
        k2 < k := by
  obtain ⟨m, hmem, hle, hfk⟩ := find_new_key_min st hn hw
  refine ⟨if 0 ≤ m then -1 else m - 1, m, hfk, hmem, hle, rfl, ?_, ?_, ?_⟩
  · intro hk
    have := hle _ hk
    split_ifs at this with h0
    · omega
    · omega
  · unfold insert_new_node
    rw [hfk]
  · have hnodes2 : (insert_new_node utm st lat lon tags attr).1.nodes =
        st.nodes ++ [⟨⟨if 0 ≤ m then -1 else m - 1, lon, lat, (utm lon lat).1,
          (utm lon lat).2, tags⟩, setdefault attr "version" "1", 0, false, []⟩] := by
      unfold insert_new_node
      rw [hfk]
    have hways2 : (insert_new_node utm st lat lon tags attr).1.ways = st.ways := by
      unfold insert_new_node
      rw [hfk]
    have hrels2 : (insert_new_node utm st lat lon tags attr).1.relationKeys =
        st.relationKeys := by
      unfold insert_new_node
      rw [hfk]
    have hn2 : (insert_new_node utm st lat lon tags attr).1.nodes ≠ [] := by
      rw [hnodes2]
      simp
    obtain ⟨m2, hmem2, hle2, hfk2⟩ :=
      find_new_key_min (insert_new_node utm st lat lon tags attr).1 hn2
        (by rw [hways2]; exact hw)
    have hkmem2 : (if 0 ≤ m then -1 else m - 1) ∈
        allIds (insert_new_node utm st lat lon tags attr).1 := by
      unfold allIds
      rw [hnodes2, hways2, hrels2]
      simp
    have hm2le := hle2 _ hkmem2
    refine ⟨if 0 ≤ m2 then -1 else m2 - 1, hfk2, ?_⟩
    split_ifs with h2 h0 h0
    · omega
    · omega
    · omega
    · omega

end MoSP

namespace MoSP

section C4Proofs

theorem find?_map_pred {α : Type} (g : α → α) (p : α → Bool)
    (hp : ∀ x, p (g x) = p x) (l : List α) :
    (l.map g).find? p = (l.find? p).map g := by
  rw [List.find?_map]
  have hpg : (p ∘ g) = p := funext hp
  rw [hpg]

theorem getNode?_setNode (st : OSMState) (i j : ℤ) (f : NodeRec → NodeRec)
    (hf : ∀ n, (f n).ref.node_id = n.ref.node_id) :
    getNode? (setNode st i f) j =
      (getNode? st j).map (fun n => if n.ref.node_id == i then f n else n) := by
  unfold getNode? setNode
  exact find?_map_pred _ _ (by
    intro n
    by_cases h : n.ref.node_id == i
    · simp only [h, if_true]
      rw [hf n]
    · simp only [h]
      rw [if_neg (by simpa using h)]) st.nodes

theorem getWay?_setWay (st : OSMState) (i j : ℤ) (f : WayRec → WayRec)
    (hf : ∀ w, (f w).way_id = w.way_id) :
    getWay? (setWay st i f) j =
      (getWay? st j).map (fun w => if w.way_id == i then f w else w) := by
  unfold getWay? setWay
  exact find?_map_pred _ _ (by
    intro w
    by_cases h : w.way_id == i
    · simp only [h, if_true]
      rw [hf w]
    · simp only [h]
      rw [if_neg (by simpa using h)]) st.ways

theorem getNode?_setNbrs (st : OSMState) (i j : ℤ) (g : NodeRec → List ℤ) :
    getNode? (setNode st i (fun n => { n with neighbours := g n })) j =
      (getNode? st j).map
        (fun n => if n.ref.node_id == i then { n with neighbours := g n } else n) :=
  getNode?_setNode st i j _ (fun _ => rfl)

theorem getNode?_setPidf (st : OSMState) (i j : ℤ) (g : NodeRec → ℤ) :
    getNode? (setNode st i (fun n => { n with partition_id := g n })) j =
      (getNode? st j).map
        (fun n => if n.ref.node_id == i then { n with partition_id := g n } else n) :=
  getNode?_setNode st i j _ (fun _ => rfl)

theorem getWay?_setPidf (st : OSMState) (i j : ℤ) (g : WayRec → ℤ) :
    getWay? (setWay st i (fun w => { w with partition_id := g w })) j =
      (getWay? st j).map
        (fun w => if w.way_id == i then { w with partition_id := g w } else w) :=
  getWay?_setWay st i j _ (fun _ => rfl)

theorem getNode?_id (st : OSMState) (i : ℤ) (r : NodeRec)
    (h : getNode? st i = some r) : r.ref.node_id = i := by
  have := List.find?_some h
  simpa using this

/-- Claim C4, amended: a successful `connect_by_node(osm, a, b)` adds a
new way tagged `highway=footway` whose node list is exactly `[a, b]`;
its partition id is `a`'s when that is positive and `b`'s otherwise,
and in the latter case `a` is relabeled with `b`'s partition id, so `a`
and `b` then share a partition id.  When `a` already has a positive
partition id different from `b`'s, the two nodes keep their distinct
ids. -/
theorem connect_by_node_spec (st : OSMState) (a b : ℤ) (ra rb : NodeRec)
    (hn : st.nodes ≠ []) (hw : st.ways ≠ [])
    (hra : getNode? st a = some ra) (hrb : getNode? st b = some rb)
    (hab : a ≠ b) :
    ∃ st' k, connect_by_node st a b = (st', .ok k) ∧
      (∃ w, getWay? st' k = some w ∧ w.tags = [("highway", "footway")] ∧
        w.nodeIDs = [a, b] ∧
        w.partition_id = (if ra.partition_id > 0 then ra.partition_id else rb.partition_id)) ∧
      pidOfNode st' b = some rb.partition_id ∧
      pidOfNode st' a =
        some (if ra.partition_id > 0 then ra.partition_id else rb.partition_id) := by
  obtain ⟨m, hmmem, hmle, hfk⟩ := find_new_key_min st hn hw
  set k := (if (0:ℤ) ≤ m then -1 else m - 1) with hkdef
  have hida : ra.ref.node_id = a := getNode?_id st a ra hra
  have hidb : rb.ref.node_id = b := getNode?_id st b rb hrb
  have hkfresh : ∀ w' ∈ st.ways, w'.way_id ≠ k := by
    intro w' hw' hcontra
    have : k ∈ allIds st := by
      unfold allIds
      simp only [List.mem_append]
      refine Or.inl (Or.inr ?_)
      rw [← hcontra]
      exact List.mem_map_of_mem _ hw'
    have := hmle _ this
    rw [hkdef] at this
    split_ifs at this <;> omega
  -- the neighbour-linking pass of Way.__init__ on [a, b]
  have hstep : wayInitNodes true [a, b] st none [] =
      (setNode (setNode st b (fun n => { n with neighbours := n.neighbours ++ [a] })) a
        (fun n => { n with neighbours := n.neighbours ++ [b] }), .ok [ra.ref, rb.ref]) := by
    simp only [wayInitNodes, hra, hrb]
    rfl
  set st2 := setNode (setNode st b (fun n => { n with neighbours := n.neighbours ++ [a] })) a
    (fun n => { n with neighbours := n.neighbours ++ [b] }) with hst2
  set wrec : WayRec := ⟨k, [a, b], [ra.ref, rb.ref], [("highway", "footway")],
    setdefault [("visible", "true")] "version" "1", 0, false⟩ with hwrec
  have happend : append_new_street st [("highway", "footway")] [a, b] [("visible", "true")] =
      ({ st2 with ways := st2.ways ++ [wrec], streetTree := st2.streetTree ++ [k] }, .ok k) := by
    unfold append_new_street
    rw [hfk]
    rw [show tagsHas [("highway", "footway")] "highway" = true from rfl]
    rw [hstep]
  set st3 : OSMState := { st2 with ways := st2.ways ++ [wrec], streetTree := st2.streetTree ++ [k] }
    with hst3
  have hga : getNode? st3 a = some { ra with neighbours := ra.neighbours ++ [b] } := by
    show getNode? st2 a = _
    rw [hst2, getNode?_setNbrs, getNode?_setNbrs, hra]
    simp [hida, hab]
  have hgb : getNode? st3 b = some { rb with neighbours := rb.neighbours ++ [a] } := by
    show getNode? st2 b = _
    rw [hst2, getNode?_setNbrs, getNode?_setNbrs, hrb]
    simp [hidb, Ne.symm hab]
  have hgw3 : getWay? st3 k = some wrec := by
    show List.find? _ (st.ways ++ [wrec]) = _
    rw [List.find?_append]
    have h1 : List.find? (fun w => w.way_id == k) st.ways = none :=
      List.find?_eq_none.mpr (by intro x hx; simpa using hkfresh x hx)
    rw [h1]
    simp
  have hcbn : connect_by_node st a b =
      (if ra.partition_id > 0 then
        (setWay st3 k (fun w => { w with partition_id := ra.partition_id }), .ok k)
      else
        (setNode (setWay st3 k (fun w => { w with partition_id := rb.partition_id })) a
          (fun n => { n with partition_id := rb.partition_id }), .ok k)) := by
    unfold connect_by_node
    simp only [happend, hga, hgb]
  by_cases hpid : ra.partition_id > 0
  · rw [if_pos hpid] at hcbn
    refine ⟨_, k, hcbn, ⟨{ wrec with partition_id := ra.partition_id }, ?_, rfl, rfl, ?_⟩,
      ?_, ?_⟩
    · rw [getWay?_setPidf, hgw3]
      simp
    · simp only [if_pos hpid]
    · show pidOfNode st3 b = _
      unfold pidOfNode
      rw [hgb]
      rfl
    · show pidOfNode st3 a = _
      unfold pidOfNode
      rw [hga]
      simp only [if_pos hpid]
      rfl
  · rw [if_neg hpid] at hcbn
    refine ⟨_, k, hcbn, ⟨{ wrec with partition_id := rb.partition_id }, ?_, rfl, rfl, ?_⟩,
      ?_, ?_⟩
    · show getWay? (setWay st3 k (fun w => { w with partition_id := rb.partition_id })) k = _
      rw [getWay?_setPidf, hgw3]
      simp
    · simp only [if_neg hpid]
    · unfold pidOfNode
      rw [getNode?_setPidf]
      rw [show getNode? (setWay st3 k (fun w => { w with partition_id := rb.partition_id })) b =
        getNode? st3 b from rfl]
      rw [hgb]
      simp [hidb, Ne.symm hab]
    · unfold pidOfNode
      rw [getNode?_setPidf]
      rw [show getNode? (setWay st3 k (fun w => { w with partition_id := rb.partition_id })) a =
        getNode? st3 a from rfl]
      rw [hga]
      simp only [if_neg hpid]
      simp [hida]

end C4Proofs

end MoSP

namespace MoSP

/-- Counterexample to claim C4 as stated: `connect_by_node` on node 1
(partition 1) and node 2 (partition 2) succeeds and creates the footway
`[1, 2]`, but the two nodes still carry different partition ids — the
positive-id branch only labels the new way and relabels neither
endpoint. -/
theorem connect_by_node_leaves_pids_distinct :
    (connect_by_node stC4 1 2).2 = .ok (-1) ∧
    pidOfNode (connect_by_node stC4 1 2).1 1 = some 1 ∧
    pidOfNode (connect_by_node stC4 1 2).1 2 = some 2 ∧
    ((getWay? (connect_by_node stC4 1 2).1 (-1)).map (fun w => (w.tags, w.nodeIDs))) =
      some ([("highway", "footway")], [1, 2]) := by
  refine ⟨?_, ?_, ?_, ?_⟩ <;> with_unfolding_all decide

/-- Witness for `connect_by_node_spec` on the concrete store. -/
theorem connect_by_node_spec_witness :
    stC4.nodes ≠ [] ∧ stC4.ways ≠ [] ∧ (1 : ℤ) ≠ 2 ∧
    ∃ st' k, connect_by_node stC4 1 2 = (st', .ok k) ∧
      (∃ w, getWay? st' k = some w ∧ w.tags = [("highway", "footway")] ∧
        w.nodeIDs = [1, 2] ∧
        w.partition_id =
          (if recA.partition_id > 0 then recA.partition_id else recB.partition_id)) ∧
      pidOfNode st' 2 = some recB.partition_id ∧
      pidOfNode st' 1 =
        some (if recA.partition_id > 0 then recA.partition_id else recB.partition_id) :=
  ⟨by with_unfolding_all decide, by with_unfolding_all decide, by decide,
    connect_by_node_spec stC4 1 2 recA recB (by with_unfolding_all decide)
      (by with_unfolding_all decide) (by with_unfolding_all decide)
      (by with_unfolding_all decide) (by decide)⟩

end MoSP

namespace MoSP

/-- Witness for `find_new_key_spec` on the concrete store `stC8`. -/
theorem find_new_key_spec_witness :
    stC8.nodes ≠ [] ∧ stC8.ways ≠ [] ∧
    ∃ k m, find_new_key stC8 = .ok k ∧
      m ∈ allIds stC8 ∧ (∀ i ∈ allIds stC8, m ≤ i) ∧
      k = (if 0 ≤ m then -1 else m - 1) ∧
      k ∉ allIds stC8 ∧
      (insert_new_node utmFlat stC8 0 0 [] []).2 = .ok k ∧
      ∃ k2, find_new_key (insert_new_node utmFlat stC8 0 0 [] []).1 = .ok k2 ∧
        k2 < k :=
  ⟨by with_unfolding_all decide, by with_unfolding_all decide,
    find_new_key_spec utmFlat 0 0 [] [] stC8
      (by with_unfolding_all decide) (by with_unfolding_all decide)⟩

end MoSP



namespace MoSP

section C7C10Proofs

set_option maxRecDepth 8000 in
/-- **C7, counterexample.**  At an address-to-nearest distance gap
exactly equal to the address threshold (gap 5, threshold 5), the POI is
connected to the unnamed nearer street's node 1 rather than toward the
named street `Main St`, although the overall-nearest street is not
closer by strictly more than the threshold. -/
theorem connect_by_address_at_threshold_ignores_name :
    tagsGet wayM.tags "name" = some "Main St" ∧
    tagsGet wayU.tags "name" = none ∧
    (get_nearest_street geodTaxicab sqrtAtZero poiC7 [wayM]).2.1 -
      (get_nearest_street geodTaxicab sqrtAtZero poiC7 streetsC7).2.1 = 5 ∧
    (connect_by_address geodTaxicab sqrtAtZero fwdFlat utmFlat stC7 poiC7
        (some "Main St") streetsC7 0 5).2 = .ok (some (-1)) ∧
    (getWay? (connect_by_address geodTaxicab sqrtAtZero fwdFlat utmFlat stC7 poiC7
        (some "Main St") streetsC7 0 5).1 (-1)).map (fun w => w.nodeIDs)
      = some [100, 1] ∧
    (1 : ℤ) ∈ wayU.nodeIDs ∧ (1 : ℤ) ∉ wayM.nodeIDs := by
  with_unfolding_all decide

/-- **C7 (amended).**  `connect_by_address` with a non-empty street
name: the same-named candidates are exactly the streets whose `name`
tag equals the given name, and the POI is connected toward the nearest
same-named street precisely when the named-street distance exceeds the
overall-nearest distance by strictly less than the address threshold;
otherwise (including a gap exactly equal to the threshold) it is
connected toward the overall-nearest street.  With no same-named
candidate it falls through to the nearest street. -/
theorem connect_by_address_spec (geod : GeodInv) (sq : SqrtFn) (fwd : GeodFwd)
    (utm : UtmProj) (st : OSMState) (poi_node : NodeRef) (s : String)
    (streets : List WayRec) (pth ath : ℚ) (hs : s ≠ "") :
    (∀ w, w ∈ streets.filter (fun w => tagsGet w.tags "name" == some s) ↔
      w ∈ streets ∧ tagsGet w.tags "name" = some s) ∧
    connect_by_address geod sq fwd utm st poi_node (some s) streets pth ath =
      (match streets.filter (fun w => tagsGet w.tags "name" == some s) with
       | [] => connect_with_nearest_street geod sq fwd utm st poi_node streets pth
       | w :: ws =>
         if (get_nearest_street geod sq poi_node (w :: ws)).2.1 -
            (get_nearest_street geod sq poi_node streets).2.1 < ath then
           connect_with_nearest_street geod sq fwd utm st poi_node (w :: ws) pth
         else
           connect_with_nearest_street geod sq fwd utm st poi_node streets pth) := by
  constructor
  · intro w
    simp [List.mem_filter]
  · simp only [connect_by_address, get_street_by_name, if_neg hs]
    cases streets.filter (fun w => tagsGet w.tags "name" == some s) with
    | nil => rfl
    | cons w ws => rfl

/-- Witness for `connect_by_address_spec` on the concrete world: with
threshold 6 (above the gap 5) the named branch is taken. -/
theorem connect_by_address_spec_witness :
    ("Main St" : String) ≠ "" ∧
    ((∀ w, w ∈ streetsC7.filter (fun w => tagsGet w.tags "name" == some "Main St") ↔
      w ∈ streetsC7 ∧ tagsGet w.tags "name" = some "Main St") ∧
    connect_by_address geodTaxicab sqrtAtZero fwdFlat utmFlat stC7 poiC7
        (some "Main St") streetsC7 0 6 =
      (match streetsC7.filter (fun w => tagsGet w.tags "name" == some "Main St") with
       | [] => connect_with_nearest_street geodTaxicab sqrtAtZero fwdFlat utmFlat
           stC7 poiC7 streetsC7 0
       | w :: ws =>
         if (get_nearest_street geodTaxicab sqrtAtZero poiC7 (w :: ws)).2.1 -
            (get_nearest_street geodTaxicab sqrtAtZero poiC7 streetsC7).2.1 < 6 then
           connect_with_nearest_street geodTaxicab sqrtAtZero fwdFlat utmFlat
             stC7 poiC7 (w :: ws) 0
         else
           connect_with_nearest_street geodTaxicab sqrtAtZero fwdFlat utmFlat
             stC7 poiC7 streetsC7 0)) :=
  ⟨by decide,
    connect_by_address_spec geodTaxicab sqrtAtZero fwdFlat utmFlat stC7 poiC7
      "Main St" streetsC7 0 6 (by decide)⟩

/-- **C10.**  A way whose first and last member node ids differ is not
an area, so `is_inside_polygon` answers `False` for every query node
without raising, and `connect_by_building` leaves the store unchanged
and connects nothing through such a way. -/
theorem is_inside_polygon_open_way (way : WayRec) (a b : ℤ)
    (h0 : way.nodeIDs.head? = some a) (h1 : way.nodeIDs.getLast? = some b)
    (hne : a ≠ b) :
    (∀ node, is_inside_polygon node way = .ok false) ∧
    (∀ (geod : GeodInv) (sq : SqrtFn) (fwd : GeodFwd) (utm : UtmProj)
      (st : OSMState) (poi : NodeRef) (streets : List WayRec) (pth ath : ℚ),
      connect_by_building geod sq fwd utm st poi (some way) streets pth ath
        = (st, .ok none)) := by
  obtain ⟨x, xs, hids⟩ : ∃ x xs, way.nodeIDs = x :: xs := by
    cases hys : way.nodeIDs with
    | nil => rw [hys] at h0; exact absurd h0 (by simp)
    | cons x xs => exact ⟨x, xs, rfl⟩
  have hx : a = x := by
    rw [hids] at h0
    simpa using h0.symm
  have hlast : xs.getLastD x = b := by
    rw [hids, List.getLast?_cons] at h1
    simpa using h1
  have hxb : x ≠ b := hx ▸ hne
  have harea : is_area way = .ok false := by
    rw [is_area, hids]
    show Except.ok (decide (x = xs.getLastD x)) = .ok false
    rw [hlast]
    simp [hxb]
  constructor
  · intro node
    simp only [is_inside_polygon, harea]
  · intro geod sq fwd utm st poi streets pth ath
    have hb : is_building (some way) = .ok false := by
      simp only [is_building, harea, Bool.false_and]
    simp only [connect_by_building, hb]

/-- Witness for `is_inside_polygon_open_way` on the concrete open
building way `wayC10`. -/
theorem is_inside_polygon_open_way_witness :
    wayC10.nodeIDs.head? = some 1 ∧ wayC10.nodeIDs.getLast? = some 2 ∧
    (1 : ℤ) ≠ 2 ∧
    is_inside_polygon nodeO wayC10 = .ok false ∧
    connect_by_building geodTaxicab sqrtAtZero fwdFlat utmFlat stC7 nodeO
      (some wayC10) [] 0 0 = (stC7, .ok none) :=
  ⟨rfl, rfl, by decide,
    (is_inside_polygon_open_way wayC10 1 2 rfl rfl (by decide)).1 nodeO,
    (is_inside_polygon_open_way wayC10 1 2 rfl rfl (by decide)).2 geodTaxicab
      sqrtAtZero fwdFlat utmFlat stC7 nodeO [] 0 0⟩

end C7C10Proofs

end MoSP
